import Mathlib

/-!
Verification development for a host-resident camera agent (Go, `main.go`).

The agent discovers video devices, keeps a camera table keyed by
`deviceUID = hostname ++ ":" ++ node`, supervises one external ffmpeg
subprocess per enabled camera (the "publishers" live set), persists an
enabled-flag mapping to a JSON state file, and serves a toggle API.

The embedding below translates the reconciliation engine
(`refreshCameras`), the publisher supervisor (`ensurePublisherLocked`,
`stopPublisherLocked`, the per-publisher exit-handling goroutine), the
state store (`loadState`, `saveState`) and the toggle handler
(`handleToggle`) into pure Lean functions.  Go maps become association
lists (`StrMap`), subprocesses become `Proc` records carrying an
`alive` and a `signaled` flag, and every locked critical section of the
Go code becomes one atomic Lean function on the `Agent` state, so that
a concurrent execution of the Go program corresponds to a composition
of these functions.  `encoding/json` marshalling of the
`map[string]bool` state is embedded as a concrete text
encoder/decoder pair (`saveStateStr` / `parseStateJson`) producing and
consuming the exact `json.MarshalIndent(state, "", "  ")` format.
Fallible effects are explicit parameters: `spawnOk` models whether an
ffmpeg spawn succeeds, `diskOk` whether a state-file write succeeds.
-/

/-- Association-list map with string keys, embedding Go's `map[string]V`. -/
abbrev StrMap (α : Type) := List (String × α)

/-- Go map read `m[k]` (with `ok`): first binding for `k`, if any. -/
def lookupS {α : Type} : StrMap α → String → Option α
  | [], _ => none
  | (k', v) :: rest, k => if k' = k then some v else lookupS rest k

/-- Go map write `m[k] = v`: replace the binding in place, or append. -/
def insertS {α : Type} : StrMap α → String → α → StrMap α
  | [], k, v => [(k, v)]
  | (k', v') :: rest, k, v =>
    if k' = k then (k, v) :: rest else (k', v') :: insertS rest k v

/-- Go `delete(m, k)`. -/
def eraseS {α : Type} : StrMap α → String → StrMap α
  | [], _ => []
  | (k', v') :: rest, k =>
    if k' = k then eraseS rest k else (k', v') :: eraseS rest k

/-- In-place update of the value at `k` (Go: mutation through the map's
pointer value), a no-op when `k` is absent. -/
def modifyS {α : Type} : StrMap α → String → (α → α) → StrMap α
  | [], _, _ => []
  | (k', v') :: rest, k, f =>
    if k' = k then (k', f v') :: modifyS rest k f
    else (k', v') :: modifyS rest k f

/-- `[a-z0-9]`, the characters `slugify` keeps (main.go:489). -/
def isSlugChar (c : Char) : Bool :=
  ('a' ≤ c && c ≤ 'z') || ('0' ≤ c && c ≤ '9')

/-- The regexp replacement `[^a-z0-9]+` → `"-"`, character by
character: `inRun` records that the current position is inside a run
of non-slug characters whose `-` has already been emitted. -/
def collapseRunsAux : Bool → List Char → List Char
  | _, [] => []
  | inRun, c :: cs =>
    if isSlugChar c then c :: collapseRunsAux false cs
    else if inRun then collapseRunsAux true cs
    else '-' :: collapseRunsAux true cs

/-- The regexp replacement `[^a-z0-9]+` → `"-"`: each maximal run of
non-slug characters collapses to a single dash. -/
def collapseRuns (l : List Char) : List Char :=
  collapseRunsAux false l

/-- Go `strings.Trim(value, "-")`. -/
def trimDash (l : List Char) : List Char :=
  ((l.dropWhile (fun c => c = '-')).reverse.dropWhile (fun c => c = '-')).reverse

/-- `slugify` (main.go:487-493): lowercase, collapse runs of
non-`[a-z0-9]` to a single `-`, trim leading/trailing `-`.
(`strings.ToLower` is modelled by `Char.toLower`, which agrees on the
ASCII inputs the agent produces.) -/
def slugify (s : String) : String :=
  String.mk (trimDash (collapseRuns (s.data.map Char.toLower)))

/-- A discovered device (main.go:48-51): display name and device node. -/
structure DeviceInfo where
  name : String
  node : String
deriving DecidableEq, Repr

/-- A camera-table entry (main.go:53-61). -/
structure Camera where
  deviceUID : String
  name : String
  node : String
  streamPath : String
  rtspUrl : String
  enabled : Bool
  publishing : Bool
deriving DecidableEq, Repr

/-- One spawned ffmpeg subprocess.  `alive` is false once the OS process
has terminated; `signaled` records that `os.Interrupt` was sent to it
(main.go:280). -/
structure Proc where
  pid : Nat
  uid : String
  alive : Bool
  signaled : Bool
deriving DecidableEq, Repr

/-- The shared agent state guarded by `a.mu` (main.go:63-70), plus the
spawned-process pool and the on-disk state file contents. -/
structure Agent where
  cameras : StrMap Camera
  publishers : StrMap Nat
  state : StrMap Bool
  procs : List Proc
  nextPid : Nat
  disk : Option String
deriving DecidableEq, Repr

/-- The slice of agent state that `ensurePublisherLocked` /
`stopPublisherLocked` touch: a camera map (whichever table the passed
`*Camera` lives in), the publishers live set, and the process pool. -/
structure PubCtx where
  cams : StrMap Camera
  publishers : StrMap Nat
  procs : List Proc
  nextPid : Nat
deriving DecidableEq, Repr

def Agent.pubCtx (a : Agent) : PubCtx :=
  { cams := a.cameras, publishers := a.publishers, procs := a.procs, nextPid := a.nextPid }

def Agent.withPubCtx (a : Agent) (p : PubCtx) : Agent :=
  { a with cameras := p.cams, publishers := p.publishers, procs := p.procs, nextPid := p.nextPid }

/-- `ensurePublisherLocked` (main.go:201-272, the locked part): no-op if
a publisher is already registered for the uid; otherwise spawn ffmpeg
(`spawnOk` models pipe/start failure, which leaves everything
unchanged), register the new pid in the live set and mark the camera
`publishing`. -/
def ensurePublisherLocked (spawnOk : Bool) (uid : String) (p : PubCtx) : PubCtx :=
  if (lookupS p.publishers uid).isSome then p
  else if !spawnOk then p
  else
    { cams := modifyS p.cams uid (fun c => { c with publishing := true }),
      publishers := insertS p.publishers uid p.nextPid,
      procs := p.procs ++ [⟨p.nextPid, uid, true, false⟩],
      nextPid := p.nextPid + 1 }

/-- `stopPublisherLocked` (main.go:274-285): no-op if no live publisher;
otherwise send `os.Interrupt` to the registered process, remove the
entry from the live set, and clear the camera's `publishing` flag. -/
def stopPublisherLocked (uid : String) (p : PubCtx) : PubCtx :=
  match lookupS p.publishers uid with
  | none => p
  | some pid =>
    { cams := modifyS p.cams uid (fun c => { c with publishing := false }),
      publishers := eraseS p.publishers uid,
      procs := p.procs.map (fun pr => if pr.pid = pid then { pr with signaled := true } else pr),
      nextPid := p.nextPid }

/-- `"<hostname>:<node>"` (main.go:166). -/
def mkDeviceUID (host : String) (d : DeviceInfo) : String :=
  host ++ ":" ++ d.node

/-- Display name, defaulting to `"Camera <idx+1>"` (main.go:160-163). -/
def mkName (d : DeviceInfo) (idx : Nat) : String :=
  if d.name = "" then "Camera " ++ toString (idx + 1) else d.name

/-- `"<hostSlug>-<nameSlug>-<idx>"` (main.go:165). -/
def mkStreamPath (hostSlug name : String) (idx : Nat) : String :=
  hostSlug ++ "-" ++ slugify name ++ "-" ++ toString idx

/-- Go `strings.TrimRight(base, "/")`. -/
def trimRightSlash (s : String) : String :=
  String.mk ((s.data.reverse.dropWhile (fun c => c = '/')).reverse)

/-- `"<base-without-trailing-slash>/<streamPath>"` (main.go:178). -/
def mkRtspURL (base streamPath : String) : String :=
  trimRightSlash base ++ "/" ++ streamPath

/-- Devices sorted lexicographically by node (main.go:149-151). -/
def sortDevices (ds : List DeviceInfo) : List DeviceInfo :=
  List.insertionSort (fun a b => a.node ≤ b.node) ds

/-- Intermediate state of one `refreshCameras` cycle while the device
loop runs: the `next` table being built, the previous table `old`
(still `a.cameras` in the Go code), and the supervisor/state-store
fields threaded through. -/
structure RefreshSt where
  next : StrMap Camera
  old : StrMap Camera
  publishers : StrMap Nat
  procs : List Proc
  nextPid : Nat
  state : StrMap Bool
deriving DecidableEq, Repr

/-- Per-cycle constants of `refreshCameras`. -/
structure RefCfg where
  host : String
  hostSlug : String
  base : String
  spawnOk : String → Bool

/-- The body of the device loop (main.go:159-189) for the device at
sorted position `idx`: build the `Camera`, seed the state store on
first sight, insert into `next`, then `ensure` (on the `next` entry)
or `stop` (which mutates the *old* table's entry, as the Go pointer
does). -/
def refreshStep (c : RefCfg) (idx : Nat) (d : DeviceInfo) (r : RefreshSt) : RefreshSt :=
  let name := mkName d idx
  let streamPath := mkStreamPath c.hostSlug name idx
  let uid := mkDeviceUID c.host d
  let enabled := match lookupS r.state uid with
    | some b => b
    | none => true
  let state' := match lookupS r.state uid with
    | some _ => r.state
    | none => insertS r.state uid true
  let cam : Camera :=
    { deviceUID := uid, name := name, node := d.node, streamPath := streamPath,
      rtspUrl := mkRtspURL c.base streamPath, enabled := enabled,
      publishing := (lookupS r.publishers uid).isSome }
  let next' := insertS r.next uid cam
  if enabled then
    let p := ensurePublisherLocked (c.spawnOk uid) uid
      ⟨next', r.publishers, r.procs, r.nextPid⟩
    { next := p.cams, old := r.old, publishers := p.publishers,
      procs := p.procs, nextPid := p.nextPid, state := state' }
  else
    let p := stopPublisherLocked uid ⟨r.old, r.publishers, r.procs, r.nextPid⟩
    { next := next', old := p.cams, publishers := p.publishers,
      procs := p.procs, nextPid := p.nextPid, state := state' }

/-- The device loop of `refreshCameras`, `idx` counting sorted scan
positions. -/
def refreshLoop (c : RefCfg) : Nat → List DeviceInfo → RefreshSt → RefreshSt
  | _, [], r => r
  | idx, d :: ds, r => refreshLoop c (idx + 1) ds (refreshStep c idx d r)

/-- The vanished-device loop (main.go:191-195): for each uid of the
previous table absent from `next`, retire its publisher (the `*Camera`
mutated by the stop lives in the old table, which is discarded right
after). -/
def vanishLoop (next : StrMap Camera) : List String → PubCtx → PubCtx
  | [], p => p
  | uid :: rest, p =>
    vanishLoop next rest
      (if (lookupS next uid).isNone then stopPublisherLocked uid p else p)

/-- Keys of a Go map in the sorted order `encoding/json` marshals them. -/
def sortPairs (m : StrMap Bool) : StrMap Bool :=
  List.insertionSort (fun a b => a.1 ≤ b.1) m

def boolStr : Bool → String
  | true => "true"
  | false => "false"

/-- One line of `json.MarshalIndent(state, "", "  ")` output. -/
def entryStr (kv : String × Bool) : String :=
  "  \"" ++ kv.1 ++ "\": " ++ boolStr kv.2

def encodeEntriesStr : StrMap Bool → String
  | [] => ""
  | [kv] => entryStr kv
  | kv :: rest => entryStr kv ++ ",\n" ++ encodeEntriesStr rest

/-- `saveState` serialization (main.go:507-516): the exact text
`json.MarshalIndent(state, "", "  ")` produces for a `map[string]bool`
(keys sorted, two-space indent). -/
def saveStateStr (m : StrMap Bool) : String :=
  match sortPairs m with
  | [] => "\x7b\x7d"
  | l => "\x7b\n" ++ encodeEntriesStr l ++ "\n\x7d"

def isWsChar (c : Char) : Bool :=
  c = ' ' || c = '\n' || c = '\t' || c = '\r'

def skipWs (cs : List Char) : List Char :=
  cs.dropWhile isWsChar

/-- Parse a JSON `true` / `false` literal. -/
def parseBoolTok : List Char → Option (Bool × List Char)
  | 't' :: 'r' :: 'u' :: 'e' :: rest => some (true, rest)
  | 'f' :: 'a' :: 'l' :: 's' :: 'e' :: rest => some (false, rest)
  | _ => none

/-- Parse a JSON string literal (no escape sequences, which the agent's
`hostname:node` keys never contain). -/
def parseKeyTok : List Char → Option (String × List Char)
  | '"' :: rest =>
    let k := rest.takeWhile (fun c => c != '"')
    match rest.dropWhile (fun c => c != '"') with
    | '"' :: rest2 => some (String.mk k, rest2)
    | _ => none
  | _ => none

/-- Parse the members of a JSON object of booleans, starting at the
first key and consuming the closing brace. -/
def parseEntries : Nat → List Char → Option (StrMap Bool × List Char)
  | 0, _ => none
  | fuel + 1, cs =>
    match parseKeyTok cs with
    | none => none
    | some (k, cs1) =>
      match skipWs cs1 with
      | ':' :: cs2 =>
        match parseBoolTok (skipWs cs2) with
        | none => none
        | some (b, cs3) =>
          match skipWs cs3 with
          | ',' :: cs4 =>
            match parseEntries fuel (skipWs cs4) with
            | some (l, cs5) => some ((k, b) :: l, cs5)
            | none => none
          | '\x7d' :: cs4 => some ([(k, b)], cs4)
          | _ => none
      | _ => none

/-- `json.Unmarshal` into `map[string]bool` (main.go:501), restricted
to the object-of-booleans grammar that type admits: `none` models an
unmarshalling error. -/
def parseStateJson (s : String) : Option (StrMap Bool) :=
  match skipWs s.data with
  | '\x7b' :: cs =>
    match skipWs cs with
    | '\x7d' :: cs2 => if (skipWs cs2).isEmpty then some [] else none
    | cs2 =>
      match parseEntries (cs2.length + 1) cs2 with
      | some (l, rest) => if (skipWs rest).isEmpty then some l else none
      | none => none
  | _ => none

/-- `loadState` (main.go:495-505): an absent file (`none`) or contents
that fail to unmarshal yield the empty mapping, never an error. -/
def loadState (file : Option String) : StrMap Bool :=
  match file with
  | none => []
  | some s =>
    match parseStateJson s with
    | some m => m
    | none => []

/-- `refreshCameras` (main.go:147-199), one full reconciliation cycle:
sort the discovered devices by node, run the device loop, retire
publishers of vanished uids, publish the new table, save the state
store (`diskOk` models whether the `saveState` write succeeds; its
error is discarded by the caller). -/
def refreshCameras (host base : String) (spawnOk : String → Bool) (diskOk : Bool)
    (devices : List DeviceInfo) (a : Agent) : Agent :=
  let c : RefCfg := ⟨host, slugify host, base, spawnOk⟩
  let r := refreshLoop c 0 (sortDevices devices)
    ⟨[], a.cameras, a.publishers, a.procs, a.nextPid, a.state⟩
  let p := vanishLoop r.next (r.old.map (fun kv => kv.1))
    ⟨r.old, r.publishers, r.procs, r.nextPid⟩
  { cameras := r.next, publishers := p.publishers, procs := p.procs,
    nextPid := p.nextPid, state := r.state,
    disk := if diskOk then some (saveStateStr r.state) else a.disk }

inductive ToggleResp where
  | ok
  | notFound
deriving DecidableEq, Repr

/-- `handleToggle` (main.go:353-386), the locked part: unknown uid →
Not-Found and no mutation; otherwise set the camera's enabled flag,
write the state-store mapping, `ensure` on enable / `stop` on disable,
and save. -/
def handleToggle (spawnOk diskOk : Bool) (uid : String) (enabled : Bool)
    (a : Agent) : Agent × ToggleResp :=
  match lookupS a.cameras uid with
  | none => (a, ToggleResp.notFound)
  | some _ =>
    let cams := modifyS a.cameras uid (fun c => { c with enabled := enabled })
    let st := insertS a.state uid enabled
    let p0 : PubCtx := ⟨cams, a.publishers, a.procs, a.nextPid⟩
    let p := if enabled then ensurePublisherLocked spawnOk uid p0
             else stopPublisherLocked uid p0
    ({ cameras := p.cams, publishers := p.publishers, procs := p.procs,
       nextPid := p.nextPid, state := st,
       disk := if diskOk then some (saveStateStr st) else a.disk },
     ToggleResp.ok)

/-- The OS event of subprocess `pid` terminating (for any reason):
`cmd.Wait()` in its exit-handler goroutine returns after this. -/
def procExit (pid : Nat) (a : Agent) : Agent :=
  { a with procs :=
      a.procs.map (fun pr => if pr.pid = pid then { pr with alive := false } else pr) }

/-- `cam := cams[uid]; cam != nil && cam.Enabled`. -/
def camPresentEnabled (cams : StrMap Camera) (uid : String) : Bool :=
  match lookupS cams uid with
  | some c => c.enabled
  | none => false

/-- The exit handler's first locked section (main.go:252-256), run when
the subprocess of `uid`'s publisher has exited: unconditionally delete
the uid's entry from the live set, and capture whether the camera is
still present and enabled at this instant. -/
def exitBookkeeping (uid : String) (a : Agent) : Agent × Bool :=
  let a' := { a with publishers := eraseS a.publishers uid }
  (a', camPresentEnabled a'.cameras uid)

/-- The exit handler's post-delay locked section (main.go:264-269):
re-read the camera and `ensure` iff it is still present and enabled. -/
def exitRestart (spawnOk : Bool) (uid : String) (a : Agent) : Agent :=
  if camPresentEnabled a.cameras uid then
    a.withPubCtx (ensurePublisherLocked spawnOk uid a.pubCtx)
  else a

/-- Whether the exit handler (main.go:249-271) re-invokes `ensure` for
`uid`, given that the world evolves by `during` while it sleeps
through the restart delay: the sleep is entered only if the camera was
present and enabled at exit-bookkeeping time, and the post-delay check
re-reads the then-current camera. -/
def exitHandlerRestartOccurs (uid : String) (a : Agent) (during : Agent → Agent) : Bool :=
  (exitBookkeeping uid a).2 &&
    camPresentEnabled (during (exitBookkeeping uid a).1).cameras uid

/-- Number of live (spawned, not yet terminated) ffmpeg subprocesses
for `uid`. -/
def liveFfmpeg (uid : String) (a : Agent) : Nat :=
  (a.procs.filter (fun pr => pr.uid == uid && pr.alive)).length

/-- The agent a newly started process builds (main.go:76-82): empty
tables, state store loaded from the state file. -/
def freshAgent (disk : Option String) : Agent :=
  { cameras := [], publishers := [], state := loadState disk,
    procs := [], nextPid := 1, disk := disk }

/-- Distinct keys, the invariant every Go map enjoys. -/
def NodupKeys {α : Type} (m : StrMap α) : Prop :=
  (m.map (fun kv => kv.1)).Nodup

instance {α : Type} (m : StrMap α) : Decidable (NodupKeys m) := by
  unfold NodupKeys; infer_instance

/-- A key whose JSON encoding is itself (no `"` or `\` that
`encoding/json` would escape), as every `hostname:node` uid is. -/
def PlainKey (k : String) : Prop :=
  '"' ∉ k.data ∧ '\\' ∉ k.data

instance (k : String) : Decidable (PlainKey k) := by
  unfold PlainKey; infer_instance

def PlainKeys (m : StrMap Bool) : Prop :=
  ∀ kv ∈ m, PlainKey kv.1

instance (m : StrMap Bool) : Decidable (PlainKeys m) := by
  unfold PlainKeys; infer_instance

instance : IsTotal DeviceInfo (fun a b => a.node ≤ b.node) :=
  ⟨fun a b => le_total a.node b.node⟩

instance : IsTrans DeviceInfo (fun a b => a.node ≤ b.node) :=
  ⟨fun _ _ _ h1 h2 => le_trans h1 h2⟩

/-! Concrete states for the C1 failure trace: host `"h"`, one device
`/dev/video0`, publisher P1 started by a reconciliation cycle, then a
disable toggle (interrupts P1), an enable toggle racing P1's death
(spawns P2), P1's exit, P1's exit-handler bookkeeping, and the
handler's post-delay restart (spawns P3). -/

def c1uid : String := "h:/dev/video0"

def c1a0 : Agent := ⟨[], [], [], [], 1, none⟩

def c1a1 : Agent :=
  refreshCameras "h" "rtsp://localhost:8554" (fun _ => true) true [⟨"", "/dev/video0"⟩] c1a0

def c1a2 : Agent := (handleToggle true true c1uid false c1a1).1

def c1a3 : Agent := (handleToggle true true c1uid true c1a2).1

def c1a4 : Agent := procExit 1 c1a3

def c1a5 : Agent := (exitBookkeeping c1uid c1a4).1

def c1a6 : Agent := exitRestart true c1uid c1a5

/-! Concrete state for the C2 counterexample: the camera exists but is
disabled when its subprocess exits (a disable toggle interrupted P1 and
P1 then died), and an enable toggle arrives afterwards. -/

def c2uid : String := "h:/dev/video0"

def c2cam : Camera :=
  ⟨c2uid, "Camera 1", "/dev/video0", "h-camera-1-0",
   "rtsp://localhost:8554/h-camera-1-0", false, false⟩

def c2agent : Agent :=
  ⟨[(c2uid, c2cam)], [], [(c2uid, false)], [⟨1, c2uid, false, true⟩], 2, none⟩

def c2during : Agent → Agent := fun a => (handleToggle true true c2uid true a).1

/-- An agent as it starts with no state file and nothing discovered. -/
def emptyAgent : Agent := ⟨[], [], [], [], 1, none⟩

/-- Variant of the C2 state in which the camera is enabled at exit time. -/
def c2enabledAgent : Agent :=
  ⟨[(c2uid, { c2cam with enabled := true })], [], [(c2uid, true)],
   [⟨1, c2uid, false, true⟩], 2, none⟩

/-- A one-camera agent with a live publisher, used to exercise the
vanished-device path concretely. -/
def c4agent : Agent :=
  ⟨[("h:/dev/video1",
     ⟨"h:/dev/video1", "Camera 1", "/dev/video1", "h-camera-1-0",
      "rtsp://x/h-camera-1-0", true, true⟩)],
   [("h:/dev/video1", 1)], [("h:/dev/video1", true)],
   [⟨1, "h:/dev/video1", true, false⟩], 2, none⟩

/-- The characters of one serialized member, from its opening quote. -/
def entryChars (k : String) (b : Bool) : List Char :=
  '"' :: k.data ++ '"' :: ':' :: ' ' :: (boolStr b).data

/-- The characters of a non-empty member list as the state-file writer
lays them out, from the first key's opening quote through the closing
brace. -/
def entriesChars : StrMap Bool → List Char
  | [] => []
  | [(k, b)] => entryChars k b ++ ['\n', '\x7d']
  | (k, b) :: rest => entryChars k b ++ ',' :: '\n' :: ' ' :: ' ' :: entriesChars rest

/-- Equality of cameras up to the `publishing` flag (the only field the
supervisor mutates in place). -/
def sameCamCore (cam cam0 : Camera) : Prop :=
  cam.deviceUID = cam0.deviceUID ∧ cam.node = cam0.node ∧ cam.name = cam0.name ∧
    cam.streamPath = cam0.streamPath ∧ cam.rtspUrl = cam0.rtspUrl ∧
    cam.enabled = cam0.enabled

/-- The process pool holds a subprocess with this pid (and, when `sig`
is set, that subprocess has been sent an interrupt). -/
def hasProcPid (pid : Nat) (sig : Bool) (procs : List Proc) : Prop :=
  ∃ pr ∈ procs, pr.pid = pid ∧ (sig = true → pr.signaled = true)

theorem lookupS_insertS {α : Type} (m : StrMap α) (k u : String) (v : α) :
    lookupS (insertS m k v) u = if k = u then some v else lookupS m u := by
  induction m with
  | nil => simp [insertS, lookupS]
  | cons kv rest ih =>
    obtain ⟨k', v'⟩ := kv
    by_cases hk : k' = k
    · subst hk
      by_cases hu : k' = u <;> simp [insertS, lookupS, hu]
    · by_cases hu : k' = u
      · subst hu
        have : ¬(k = k') := fun h => hk h.symm
        simp [insertS, lookupS, hk, this]
      · simp [insertS, lookupS, hk, hu, ih]

theorem lookupS_eraseS {α : Type} (m : StrMap α) (k u : String) :
    lookupS (eraseS m k) u = if k = u then none else lookupS m u := by
  induction m with
  | nil => simp [eraseS, lookupS]
  | cons kv rest ih =>
    obtain ⟨k', v'⟩ := kv
    by_cases hk : k' = k
    · subst hk
      by_cases hu : k' = u
      · subst hu; simp [eraseS, lookupS, ih]
      · simp [eraseS, lookupS, hu, ih]
    · by_cases hu : k' = u
      · subst hu
        have hku : ¬(k = k') := fun h => hk h.symm
        simp [eraseS, lookupS, hk, hku]
      · simp [eraseS, lookupS, hk, hu, ih]

theorem lookupS_modifyS {α : Type} (m : StrMap α) (k u : String) (f : α → α) :
    lookupS (modifyS m k f) u =
      if k = u then (lookupS m u).map f else lookupS m u := by
  induction m with
  | nil => simp [modifyS, lookupS]
  | cons kv rest ih =>
    obtain ⟨k', v'⟩ := kv
    by_cases hk : k' = k
    · subst hk
      by_cases hu : k' = u
      · subst hu; simp [modifyS, lookupS, ih]
      · simp [modifyS, lookupS, hu, ih]
    · by_cases hu : k' = u
      · subst hu
        have hku : ¬(k = k') := fun h => hk h.symm
        simp [modifyS, lookupS, hk, hku]
      · simp [modifyS, lookupS, hk, hu, ih]

theorem lookupS_isSome_iff_mem {α : Type} (m : StrMap α) (u : String) :
    (lookupS m u).isSome ↔ u ∈ m.map (fun kv => kv.1) := by
  induction m with
  | nil => simp [lookupS]
  | cons kv rest ih =>
    obtain ⟨k', v'⟩ := kv
    by_cases hu : k' = u
    · subst hu; simp [lookupS]
    · simp [lookupS, hu, Ne.symm hu, ih]

theorem keys_insertS {α : Type} (m : StrMap α) (k : String) (v : α) :
    (insertS m k v).map (fun kv => kv.1) =
      if (lookupS m k).isSome then m.map (fun kv => kv.1)
      else m.map (fun kv => kv.1) ++ [k] := by
  induction m with
  | nil => simp [insertS, lookupS]
  | cons kv rest ih =>
    obtain ⟨k', v'⟩ := kv
    by_cases hk : k' = k
    · subst hk; simp [insertS, lookupS]
    · simp [insertS, lookupS, hk, ih]
      by_cases hs : (lookupS rest k).isSome <;> simp [hs]

theorem nodupKeys_insertS {α : Type} (m : StrMap α) (k : String) (v : α)
    (h : NodupKeys m) : NodupKeys (insertS m k v) := by
  unfold NodupKeys at h ⊢
  rw [keys_insertS]
  by_cases hs : (lookupS m k).isSome
  · simpa [hs]
  · have hk : k ∉ m.map (fun kv => kv.1) := by
      intro hmem
      exact hs ((lookupS_isSome_iff_mem m k).mpr hmem)
    simp [hs, List.nodup_append, h, hk]

theorem mem_insertS_sub {α : Type} (m : StrMap α) (k : String) (v : α)
    (kv : String × α) (h : kv ∈ insertS m k v) : kv = (k, v) ∨ kv ∈ m := by
  induction m with
  | nil => simp [insertS] at h; exact Or.inl h
  | cons kv0 rest ih =>
    obtain ⟨k', v'⟩ := kv0
    by_cases hk : k' = k
    · subst hk
      simp [insertS] at h
      rcases h with h | h
      · exact Or.inl h
      · exact Or.inr (List.mem_cons_of_mem _ h)
    · simp [insertS, hk] at h
      rcases h with h | h
      · exact Or.inr (by simp [h])
      · rcases ih h with h1 | h1
        · exact Or.inl h1
        · exact Or.inr (List.mem_cons_of_mem _ h1)

theorem plainKeys_insertS (m : StrMap Bool) (k : String) (v : Bool)
    (hm : PlainKeys m) (hk : PlainKey k) : PlainKeys (insertS m k v) := by
  intro kv hkv
  rcases mem_insertS_sub m k v kv hkv with h | h
  · subst h; exact hk
  · exact hm kv h

theorem ensure_noop_of_isSome (s : Bool) (uid : String) (p : PubCtx)
    (h : (lookupS p.publishers uid).isSome) :
    ensurePublisherLocked s uid p = p := by
  simp [ensurePublisherLocked, h]

theorem stop_noop_of_none (uid : String) (p : PubCtx)
    (h : lookupS p.publishers uid = none) :
    stopPublisherLocked uid p = p := by
  simp [stopPublisherLocked, h]

theorem ensure_pubs_self (uid : String) (p : PubCtx) :
    (lookupS (ensurePublisherLocked true uid p).publishers uid).isSome := by
  by_cases h : (lookupS p.publishers uid).isSome
  · simp [ensurePublisherLocked, h]
  · simp [ensurePublisherLocked, h, lookupS_insertS]

theorem ensure_pubs_other (s : Bool) (uid u : String) (p : PubCtx) (hu : u ≠ uid) :
    lookupS (ensurePublisherLocked s uid p).publishers u = lookupS p.publishers u := by
  unfold ensurePublisherLocked
  split_ifs with h1 h2
  · rfl
  · rfl
  · simp [lookupS_insertS, Ne.symm hu]

theorem stop_pubs_self (uid : String) (p : PubCtx) :
    lookupS (stopPublisherLocked uid p).publishers uid = none := by
  unfold stopPublisherLocked
  cases h : lookupS p.publishers uid with
  | none => simp [h]
  | some pid => simp [lookupS_eraseS]

theorem stop_pubs_other (uid u : String) (p : PubCtx) (hu : u ≠ uid) :
    lookupS (stopPublisherLocked uid p).publishers u = lookupS p.publishers u := by
  unfold stopPublisherLocked
  cases h : lookupS p.publishers uid with
  | none => rfl
  | some pid => simp [lookupS_eraseS, Ne.symm hu]

theorem ensure_cams_lookup (s : Bool) (uid u : String) (p : PubCtx) :
    lookupS (ensurePublisherLocked s uid p).cams u = lookupS p.cams u ∨
      (u = uid ∧ lookupS (ensurePublisherLocked s uid p).cams u =
        (lookupS p.cams u).map (fun c => { c with publishing := true })) := by
  unfold ensurePublisherLocked
  split_ifs with h1 h2
  · exact Or.inl rfl
  · exact Or.inl rfl
  · by_cases hu : u = uid
    · subst hu; exact Or.inr ⟨rfl, by simp [lookupS_modifyS]⟩
    · exact Or.inl (by simp [lookupS_modifyS, Ne.symm hu])

theorem stop_cams_lookup (uid u : String) (p : PubCtx) :
    lookupS (stopPublisherLocked uid p).cams u = lookupS p.cams u ∨
      (u = uid ∧ lookupS (stopPublisherLocked uid p).cams u =
        (lookupS p.cams u).map (fun c => { c with publishing := false })) := by
  unfold stopPublisherLocked
  cases h : lookupS p.publishers uid with
  | none => exact Or.inl rfl
  | some pid =>
    by_cases hu : u = uid
    · subst hu; exact Or.inr ⟨rfl, by simp [lookupS_modifyS]⟩
    · exact Or.inl (by simp [lookupS_modifyS, Ne.symm hu])

theorem hasProcPid_map_signal (pid tgt : Nat) (sig : Bool) (procs : List Proc)
    (h : hasProcPid pid sig procs) :
    hasProcPid pid sig
      (procs.map (fun pr => if pr.pid = tgt then { pr with signaled := true } else pr)) := by
  obtain ⟨pr, hmem, hpid, hsig⟩ := h
  refine ⟨(fun pr => if pr.pid = tgt then { pr with signaled := true } else pr) pr,
    List.mem_map_of_mem _ hmem, ?_, ?_⟩
  · dsimp only
    by_cases ht : pr.pid = tgt
    · rw [if_pos ht]; exact hpid
    · rw [if_neg ht]; exact hpid
  · dsimp only
    by_cases ht : pr.pid = tgt
    · rw [if_pos ht]; intro _; rfl
    · rw [if_neg ht]; exact hsig

theorem hasProcPid_map_signal_self (pid : Nat) (procs : List Proc)
    (h : hasProcPid pid false procs) :
    hasProcPid pid true
      (procs.map (fun pr => if pr.pid = pid then { pr with signaled := true } else pr)) := by
  obtain ⟨pr, hmem, hpid, _⟩ := h
  refine ⟨(fun pr => if pr.pid = pid then { pr with signaled := true } else pr) pr,
    List.mem_map_of_mem _ hmem, ?_, ?_⟩
  · dsimp only
    rw [if_pos hpid]; exact hpid
  · dsimp only
    rw [if_pos hpid]; intro _; rfl

theorem hasProcPid_append (pid : Nat) (sig : Bool) (procs l : List Proc)
    (h : hasProcPid pid sig procs) : hasProcPid pid sig (procs ++ l) := by
  obtain ⟨pr, hmem, hpid, hsig⟩ := h
  exact ⟨pr, List.mem_append_left _ hmem, hpid, hsig⟩

theorem hasProcPid_ensure (s : Bool) (uid : String) (p : PubCtx) (pid : Nat) (sig : Bool)
    (h : hasProcPid pid sig p.procs) :
    hasProcPid pid sig (ensurePublisherLocked s uid p).procs := by
  unfold ensurePublisherLocked
  split_ifs with h1 h2
  · exact h
  · exact h
  · exact hasProcPid_append _ _ _ _ h

theorem hasProcPid_stop (uid : String) (p : PubCtx) (pid : Nat) (sig : Bool)
    (h : hasProcPid pid sig p.procs) :
    hasProcPid pid sig (stopPublisherLocked uid p).procs := by
  unfold stopPublisherLocked
  cases hl : lookupS p.publishers uid with
  | none => exact h
  | some pid2 => exact hasProcPid_map_signal _ _ _ _ h

theorem hasProcPid_stop_self (uid : String) (p : PubCtx) (pid : Nat)
    (hl : lookupS p.publishers uid = some pid)
    (h : hasProcPid pid false p.procs) :
    hasProcPid pid true (stopPublisherLocked uid p).procs := by
  unfold stopPublisherLocked
  rw [hl]
  exact hasProcPid_map_signal_self _ _ h

theorem keys_modifyS {α : Type} (m : StrMap α) (k : String) (f : α → α) :
    (modifyS m k f).map (fun kv => kv.1) = m.map (fun kv => kv.1) := by
  induction m with
  | nil => simp [modifyS]
  | cons kv rest ih =>
    obtain ⟨k', v'⟩ := kv
    by_cases hk : k' = k <;> simp [modifyS, hk, ih]

theorem refreshStep_publishers (c : RefCfg) (idx : Nat) (d : DeviceInfo) (r : RefreshSt)
    (u : String) (hu : u ≠ mkDeviceUID c.host d) :
    lookupS (refreshStep c idx d r).publishers u = lookupS r.publishers u := by
  unfold refreshStep
  dsimp only
  cases hst : lookupS r.state (mkDeviceUID c.host d) with
  | some b =>
    cases b with
    | true => simp [hst, ensure_pubs_other _ _ _ _ hu]
    | false => simp [hst, stop_pubs_other _ _ _ hu]
  | none => simp [hst, ensure_pubs_other _ _ _ _ hu]

theorem refreshStep_state_some (c : RefCfg) (idx : Nat) (d : DeviceInfo) (r : RefreshSt)
    (u : String) (v : Bool) (h : lookupS r.state u = some v) :
    lookupS (refreshStep c idx d r).state u = some v := by
  unfold refreshStep
  dsimp only
  cases hst : lookupS r.state (mkDeviceUID c.host d) with
  | some b =>
    cases b <;> simp [hst, h]
  | none =>
    have hu : ¬(mkDeviceUID c.host d = u) := by
      intro he; rw [he] at hst; rw [hst] at h; cases h
    simp [hst, lookupS_insertS, hu, h]

theorem ensure_cams_none (s : Bool) (uid u : String) (p : PubCtx)
    (hu : u ≠ uid) (h : lookupS p.cams u = none) :
    lookupS (ensurePublisherLocked s uid p).cams u = none := by
  rcases ensure_cams_lookup s uid u p with hc | hc
  · rw [hc]; exact h
  · exact absurd hc.1 hu

theorem refreshStep_next_none (c : RefCfg) (idx : Nat) (d : DeviceInfo) (r : RefreshSt)
    (u : String) (hu : u ≠ mkDeviceUID c.host d) (h : lookupS r.next u = none) :
    lookupS (refreshStep c idx d r).next u = none := by
  unfold refreshStep
  dsimp only
  have hne : ¬(mkDeviceUID c.host d = u) := fun he => hu he.symm
  cases hst : lookupS r.state (mkDeviceUID c.host d) with
  | some b =>
    cases b with
    | true =>
      simp only [hst]
      exact ensure_cams_none _ _ _ _ hu (by simp [lookupS_insertS, hne, h])
    | false => simp [hst, lookupS_insertS, hne, h]
  | none =>
    simp only [hst]
    exact ensure_cams_none _ _ _ _ hu (by simp [lookupS_insertS, hne, h])

theorem refreshStep_procs (c : RefCfg) (idx : Nat) (d : DeviceInfo) (r : RefreshSt)
    (pid : Nat) (sig : Bool) (h : hasProcPid pid sig r.procs) :
    hasProcPid pid sig (refreshStep c idx d r).procs := by
  unfold refreshStep
  dsimp only
  cases hst : lookupS r.state (mkDeviceUID c.host d) with
  | some b =>
    cases b with
    | true =>
      simp only [hst]
      exact hasProcPid_ensure _ _ _ _ _ h
    | false =>
      simp only [hst]
      exact hasProcPid_stop _ _ _ _ h
  | none =>
    simp only [hst]
    exact hasProcPid_ensure _ _ _ _ _ h

theorem stop_cams_keys (uid : String) (p : PubCtx) :
    (stopPublisherLocked uid p).cams.map (fun kv => kv.1) =
      p.cams.map (fun kv => kv.1) := by
  unfold stopPublisherLocked
  cases h : lookupS p.publishers uid with
  | none => rfl
  | some pid => simp [keys_modifyS]

theorem refreshStep_old_keys (c : RefCfg) (idx : Nat) (d : DeviceInfo) (r : RefreshSt) :
    (refreshStep c idx d r).old.map (fun kv => kv.1) = r.old.map (fun kv => kv.1) := by
  unfold refreshStep
  dsimp only
  cases hst : lookupS r.state (mkDeviceUID c.host d) with
  | some b =>
    cases b with
    | true => simp [hst]
    | false =>
      simp only [hst]
      exact stop_cams_keys _ _
  | none => simp [hst]

theorem refreshLoop_publishers (c : RefCfg) (uid : String) :
    ∀ (ds : List DeviceInfo) (idx : Nat) (r : RefreshSt),
      (∀ d ∈ ds, mkDeviceUID c.host d ≠ uid) →
      lookupS (refreshLoop c idx ds r).publishers uid = lookupS r.publishers uid := by
  intro ds
  induction ds with
  | nil => intro idx r _; rfl
  | cons d rest ih =>
    intro idx r hds
    have h1 : mkDeviceUID c.host d ≠ uid := hds d (List.mem_cons_self d rest)
    have h2 : ∀ d' ∈ rest, mkDeviceUID c.host d' ≠ uid :=
      fun d' hd' => hds d' (List.mem_cons_of_mem _ hd')
    unfold refreshLoop
    rw [ih (idx + 1) _ h2]
    exact refreshStep_publishers c idx d r uid (fun he => h1 he.symm)

theorem refreshLoop_state_some (c : RefCfg) (u : String) (v : Bool) :
    ∀ (ds : List DeviceInfo) (idx : Nat) (r : RefreshSt),
      lookupS r.state u = some v →
      lookupS (refreshLoop c idx ds r).state u = some v := by
  intro ds
  induction ds with
  | nil => intro idx r h; exact h
  | cons d rest ih =>
    intro idx r h
    unfold refreshLoop
    exact ih (idx + 1) _ (refreshStep_state_some c idx d r u v h)

theorem refreshLoop_next_none (c : RefCfg) (uid : String) :
    ∀ (ds : List DeviceInfo) (idx : Nat) (r : RefreshSt),
      (∀ d ∈ ds, mkDeviceUID c.host d ≠ uid) →
      lookupS r.next uid = none →
      lookupS (refreshLoop c idx ds r).next uid = none := by
  intro ds
  induction ds with
  | nil => intro idx r _ h; exact h
  | cons d rest ih =>
    intro idx r hds h
    have h1 : mkDeviceUID c.host d ≠ uid := hds d (List.mem_cons_self d rest)
    have h2 : ∀ d' ∈ rest, mkDeviceUID c.host d' ≠ uid :=
      fun d' hd' => hds d' (List.mem_cons_of_mem _ hd')
    unfold refreshLoop
    exact ih (idx + 1) _ h2
      (refreshStep_next_none c idx d r uid (fun he => h1 he.symm) h)

theorem refreshLoop_procs (c : RefCfg) (pid : Nat) (sig : Bool) :
    ∀ (ds : List DeviceInfo) (idx : Nat) (r : RefreshSt),
      hasProcPid pid sig r.procs →
      hasProcPid pid sig (refreshLoop c idx ds r).procs := by
  intro ds
  induction ds with
  | nil => intro idx r h; exact h
  | cons d rest ih =>
    intro idx r h
    unfold refreshLoop
    exact ih (idx + 1) _ (refreshStep_procs c idx d r pid sig h)

theorem refreshLoop_old_keys (c : RefCfg) :
    ∀ (ds : List DeviceInfo) (idx : Nat) (r : RefreshSt),
      (refreshLoop c idx ds r).old.map (fun kv => kv.1) =
        r.old.map (fun kv => kv.1) := by
  intro ds
  induction ds with
  | nil => intro idx r; rfl
  | cons d rest ih =>
    intro idx r
    unfold refreshLoop
    rw [ih (idx + 1) _, refreshStep_old_keys]

theorem vanish_preserve (next : StrMap Camera) (uid : String) (pid : Nat) :
    ∀ (uids : List String) (p : PubCtx),
      lookupS p.publishers uid = none → hasProcPid pid true p.procs →
      lookupS (vanishLoop next uids p).publishers uid = none ∧
        hasProcPid pid true (vanishLoop next uids p).procs := by
  intro uids
  induction uids with
  | nil => intro p h1 h2; exact ⟨h1, h2⟩
  | cons u rest ih =>
    intro p h1 h2
    unfold vanishLoop
    by_cases hn : (lookupS next u).isNone
    · simp only [hn, if_pos]
      by_cases hu : u = uid
      · subst hu
        rw [stop_noop_of_none u p h1]
        exact ih p h1 h2
      · exact ih _ (by rw [stop_pubs_other u uid p (fun he => hu he.symm)]; exact h1)
          (hasProcPid_stop _ _ _ _ h2)
    · simp only [hn, if_neg, Bool.false_eq_true, not_false_eq_true]
      exact ih p h1 h2

theorem vanish_retire (next : StrMap Camera) (uid : String) (pid : Nat) :
    ∀ (uids : List String) (p : PubCtx),
      uid ∈ uids → (lookupS next uid).isNone →
      lookupS p.publishers uid = some pid →
      hasProcPid pid false p.procs →
      lookupS (vanishLoop next uids p).publishers uid = none ∧
        hasProcPid pid true (vanishLoop next uids p).procs := by
  intro uids
  induction uids with
  | nil => intro p h; cases h
  | cons u rest ih =>
    intro p hmem hnone hpub hproc
    unfold vanishLoop
    by_cases hu : u = uid
    · subst hu
      simp only [hnone, if_pos]
      have hstop1 : lookupS (stopPublisherLocked u p).publishers u = none :=
        stop_pubs_self u p
      have hstop2 : hasProcPid pid true (stopPublisherLocked u p).procs :=
        hasProcPid_stop_self u p pid hpub hproc
      exact vanish_preserve next u pid rest _ hstop1 hstop2
    · have hmem' : uid ∈ rest := by
        rcases List.mem_cons.mp hmem with h | h
        · exact absurd h.symm hu
        · exact h
      by_cases hn : (lookupS next u).isNone
      · simp only [hn, if_pos]
        refine ih _ hmem' hnone ?_ (hasProcPid_stop _ _ _ _ hproc)
        rw [stop_pubs_other u uid p (fun he => hu he.symm)]
        exact hpub
      · simp only [hn, if_neg, Bool.false_eq_true, not_false_eq_true]
        exact ih p hmem' hnone hpub hproc

theorem ensure_cams_enabled (s : Bool) (uid u : String) (p : PubCtx) (v0 : Bool)
    (h : ∀ cam, lookupS p.cams u = some cam → cam.enabled = v0) :
    ∀ cam, lookupS (ensurePublisherLocked s uid p).cams u = some cam → cam.enabled = v0 := by
  intro cam hc
  rcases ensure_cams_lookup s uid u p with h1 | h1
  · exact h cam (h1 ▸ hc)
  · rw [h1.2] at hc
    cases hl : lookupS p.cams u with
    | none => rw [hl] at hc; cases hc
    | some cam0 =>
      rw [hl] at hc
      injection hc with h2
      rw [← h2]
      exact h cam0 hl

theorem refreshStep_inv (c : RefCfg) (idx : Nat) (d : DeviceInfo) (r : RefreshSt)
    (uid : String) (v0 : Bool)
    (h1 : (lookupS r.state uid).getD true = v0)
    (h2 : ∀ cam, lookupS r.next uid = some cam → cam.enabled = v0) :
    ((lookupS (refreshStep c idx d r).state uid).getD true = v0) ∧
    (∀ cam, lookupS (refreshStep c idx d r).next uid = some cam → cam.enabled = v0) := by
  unfold refreshStep
  dsimp only
  by_cases hd : mkDeviceUID c.host d = uid
  · rw [hd]
    cases hst : lookupS r.state uid with
    | some b =>
      have hb : b = v0 := by rw [hst] at h1; simpa using h1
      subst hb
      cases hv : b with
      | true =>
        subst hv
        simp only [hst, Bool.false_eq_true, if_false, if_true, reduceIte]
        refine ⟨by simp, ?_⟩
        refine ensure_cams_enabled _ _ _ _ _ ?_
        intro cam hc
        rw [lookupS_insertS] at hc
        simp at hc
        rw [← hc]
      | false =>
        subst hv
        simp only [hst, Bool.false_eq_true, if_false, if_true, reduceIte]
        refine ⟨by simp, ?_⟩
        intro cam hc
        rw [lookupS_insertS] at hc
        simp at hc
        rw [← hc]
    | none =>
      have hv : v0 = true := by rw [hst] at h1; simpa using h1
      subst hv
      simp only [hst, Bool.false_eq_true, if_false, if_true, reduceIte]
      constructor
      · rw [lookupS_insertS]; simp
      · refine ensure_cams_enabled _ _ _ _ _ ?_
        intro cam hc
        rw [lookupS_insertS] at hc
        simp at hc
        rw [← hc]
  · have hdu : uid ≠ mkDeviceUID c.host d := fun he => hd he.symm
    have hins : ∀ cam2 : Camera,
        ∀ camv : Camera, lookupS (insertS r.next (mkDeviceUID c.host d) cam2) uid = some camv →
          camv.enabled = v0 := by
      intro cam2 camv hc
      rw [lookupS_insertS, if_neg hd] at hc
      exact h2 camv hc
    cases hst : lookupS r.state (mkDeviceUID c.host d) with
    | some b =>
      cases b with
      | true =>
        simp only [hst, Bool.false_eq_true, if_false, if_true, reduceIte]
        exact ⟨h1, ensure_cams_enabled _ _ _ _ _ (hins _)⟩
      | false =>
        simp only [hst, Bool.false_eq_true, if_false, if_true, reduceIte]
        exact ⟨h1, hins _⟩
    | none =>
      simp only [hst, Bool.false_eq_true, if_false, if_true, reduceIte]
      constructor
      · rw [lookupS_insertS, if_neg hd]; exact h1
      · exact ensure_cams_enabled _ _ _ _ _ (hins _)

theorem refreshStep_state_getD (c : RefCfg) (idx : Nat) (d : DeviceInfo) (r : RefreshSt)
    (uid : String) (v0 : Bool)
    (h1 : (lookupS r.state uid).getD true = v0) :
    (lookupS (refreshStep c idx d r).state uid).getD true = v0 := by
  unfold refreshStep
  dsimp only
  by_cases hd : mkDeviceUID c.host d = uid
  · rw [hd]
    cases hst : lookupS r.state uid with
    | some b =>
      cases b <;>
        simp only [hst, Bool.false_eq_true, if_false, if_true, reduceIte] <;>
        · rw [hst] at h1; simpa using h1
    | none =>
      have hv : v0 = true := by rw [hst] at h1; simpa using h1
      subst hv
      simp only [hst, if_true]
      rw [lookupS_insertS]
      simp
  · have hne : ¬(mkDeviceUID c.host d = uid) := hd
    cases hst : lookupS r.state (mkDeviceUID c.host d) with
    | some b =>
      cases b <;> simp only [hst, Bool.false_eq_true, if_false, if_true, reduceIte] <;> exact h1
    | none =>
      simp only [hst, if_true]
      rw [lookupS_insertS, if_neg hne]
      exact h1

theorem refreshStep_seed (c : RefCfg) (idx : Nat) (d : DeviceInfo) (r : RefreshSt)
    (uid : String) (v0 : Bool)
    (hd : mkDeviceUID c.host d = uid)
    (h1 : (lookupS r.state uid).getD true = v0) :
    lookupS (refreshStep c idx d r).state uid = some v0 := by
  unfold refreshStep
  dsimp only
  rw [hd]
  cases hst : lookupS r.state uid with
  | some b =>
    have hb : b = v0 := by rw [hst] at h1; simpa using h1
    subst hb
    cases hv : b <;>
      simp only [hst, Bool.false_eq_true, if_false, if_true, reduceIte] <;>
      simp [hst, hv]
  | none =>
    have hv : v0 = true := by rw [hst] at h1; simpa using h1
    subst hv
    simp only [hst, if_true]
    rw [lookupS_insertS]
    simp

theorem refreshLoop_inv (c : RefCfg) (uid : String) (v0 : Bool) :
    ∀ (ds : List DeviceInfo) (idx : Nat) (r : RefreshSt),
      (lookupS r.state uid).getD true = v0 →
      (∀ cam, lookupS r.next uid = some cam → cam.enabled = v0) →
      ((lookupS (refreshLoop c idx ds r).state uid).getD true = v0 ∧
        (∀ cam, lookupS (refreshLoop c idx ds r).next uid = some cam → cam.enabled = v0)) := by
  intro ds
  induction ds with
  | nil => intro idx r h1 h2; exact ⟨h1, h2⟩
  | cons d rest ih =>
    intro idx r h1 h2
    obtain ⟨h1', h2'⟩ := refreshStep_inv c idx d r uid v0 h1 h2
    exact ih (idx + 1) _ h1' h2'

theorem refreshLoop_seed (c : RefCfg) (uid : String) (v0 : Bool) :
    ∀ (ds : List DeviceInfo) (idx : Nat) (r : RefreshSt),
      (∃ d ∈ ds, mkDeviceUID c.host d = uid) →
      (lookupS r.state uid).getD true = v0 →
      lookupS (refreshLoop c idx ds r).state uid = some v0 := by
  intro ds
  induction ds with
  | nil =>
    intro idx r h
    obtain ⟨d0, hd0, _⟩ := h
    cases hd0
  | cons d rest ih =>
    intro idx r hex h1
    rcases hex with ⟨d', hd', he⟩
    rcases List.mem_cons.mp hd' with hh | hh
    · unfold refreshLoop
      exact refreshLoop_state_some c uid v0 rest (idx + 1) _
        (refreshStep_seed c idx d r uid v0 (hh ▸ he) h1)
    · unfold refreshLoop
      exact ih (idx + 1) _ ⟨d', hh, he⟩ (refreshStep_state_getD c idx d r uid v0 h1)

theorem ensure_insert_from (s : Bool) (uid0 uid : String) (nx : StrMap Camera)
    (camd : Camera) (pubs : StrMap Nat) (procs : List Proc) (np : Nat) (cam : Camera)
    (h : lookupS (ensurePublisherLocked s uid0
          ⟨insertS nx uid0 camd, pubs, procs, np⟩).cams uid = some cam) :
    lookupS nx uid = some cam ∨ (uid = uid0 ∧ sameCamCore cam camd) := by
  rcases ensure_cams_lookup s uid0 uid ⟨insertS nx uid0 camd, pubs, procs, np⟩ with h1 | h1
  · rw [h1] at h
    dsimp only at h
    rw [lookupS_insertS] at h
    by_cases he : uid0 = uid
    · rw [if_pos he] at h
      injection h with h2
      exact Or.inr ⟨he.symm, by rw [← h2]; exact ⟨rfl, rfl, rfl, rfl, rfl, rfl⟩⟩
    · rw [if_neg he] at h
      exact Or.inl h
  · obtain ⟨he, heq⟩ := h1
    rw [heq] at h
    dsimp only at h
    rw [lookupS_insertS, if_pos he.symm] at h
    simp only [Option.map_some'] at h
    injection h with h2
    exact Or.inr ⟨he, by rw [← h2]; exact ⟨rfl, rfl, rfl, rfl, rfl, rfl⟩⟩

theorem refreshStep_next_from (c : RefCfg) (idx : Nat) (d : DeviceInfo) (r : RefreshSt)
    (uid : String) (cam : Camera)
    (h : lookupS (refreshStep c idx d r).next uid = some cam) :
    lookupS r.next uid = some cam ∨
      (uid = mkDeviceUID c.host d ∧
        cam.deviceUID = mkDeviceUID c.host d ∧ cam.node = d.node ∧
        cam.name = mkName d idx ∧
        cam.streamPath = mkStreamPath c.hostSlug (mkName d idx) idx ∧
        cam.rtspUrl = mkRtspURL c.base (mkStreamPath c.hostSlug (mkName d idx) idx)) := by
  unfold refreshStep at h
  dsimp only at h
  cases hst : lookupS r.state (mkDeviceUID c.host d) with
  | some b =>
    cases b with
    | true =>
      simp only [hst, Bool.false_eq_true, if_false, if_true, reduceIte] at h
      rcases ensure_insert_from _ _ _ _ _ _ _ _ _ h with h1 | ⟨he, e1, e2, e3, e4, e5, _⟩
      · exact Or.inl h1
      · exact Or.inr ⟨he, e1, e2, e3, e4, e5⟩
    | false =>
      simp only [hst, Bool.false_eq_true, if_false, if_true, reduceIte] at h
      rw [lookupS_insertS] at h
      by_cases he : mkDeviceUID c.host d = uid
      · rw [if_pos he] at h
        injection h with h2
        refine Or.inr ⟨he.symm, ?_⟩
        rw [← h2]
        exact ⟨rfl, rfl, rfl, rfl, rfl⟩
      · rw [if_neg he] at h
        exact Or.inl h
  | none =>
    simp only [hst, Bool.false_eq_true, if_false, if_true, reduceIte] at h
    rcases ensure_insert_from _ _ _ _ _ _ _ _ _ h with h1 | ⟨he, e1, e2, e3, e4, e5, _⟩
    · exact Or.inl h1
    · exact Or.inr ⟨he, e1, e2, e3, e4, e5⟩

theorem refreshLoop_next_from (c : RefCfg) :
    ∀ (ds : List DeviceInfo) (idx : Nat) (r : RefreshSt) (uid : String) (cam : Camera),
      lookupS (refreshLoop c idx ds r).next uid = some cam →
      lookupS r.next uid = some cam ∨
        ∃ k d, ds.get? k = some d ∧ uid = mkDeviceUID c.host d ∧
          cam.deviceUID = mkDeviceUID c.host d ∧ cam.node = d.node ∧
          cam.name = mkName d (idx + k) ∧
          cam.streamPath = mkStreamPath c.hostSlug (mkName d (idx + k)) (idx + k) ∧
          cam.rtspUrl = mkRtspURL c.base (mkStreamPath c.hostSlug (mkName d (idx + k)) (idx + k)) := by
  intro ds
  induction ds with
  | nil => intro idx r uid cam h; exact Or.inl h
  | cons d rest ih =>
    intro idx r uid cam h
    rcases ih (idx + 1) (refreshStep c idx d r) uid cam h with h1 | ⟨k, d', hk, he, e1, e2, e3, e4, e5⟩
    · rcases refreshStep_next_from c idx d r uid cam h1 with h2 | ⟨he, e1, e2, e3, e4, e5⟩
      · exact Or.inl h2
      · refine Or.inr ⟨0, d, rfl, he, e1, e2, ?_, ?_, ?_⟩ <;> simpa
    · refine Or.inr ⟨k + 1, d', by simpa using hk, he, e1, e2, ?_, ?_, ?_⟩ <;>
        · rw [show idx + (k + 1) = idx + 1 + k by omega]
          assumption

theorem refresh_state_val (host base : String) (sp : String → Bool) (dk : Bool)
    (ds : List DeviceInfo) (a : Agent) (d : DeviceInfo) (hd : d ∈ ds) :
    lookupS (refreshCameras host base sp dk ds a).state (mkDeviceUID host d) =
      some ((lookupS a.state (mkDeviceUID host d)).getD true) := by
  unfold refreshCameras
  dsimp only
  exact refreshLoop_seed ⟨host, slugify host, base, sp⟩ (mkDeviceUID host d)
    ((lookupS a.state (mkDeviceUID host d)).getD true)
    (sortDevices ds) 0 ⟨[], a.cameras, a.publishers, a.procs, a.nextPid, a.state⟩
    ⟨d, ((List.perm_insertionSort _ ds).mem_iff).mpr hd, rfl⟩ rfl

theorem refresh_cam_enabled_val (host base : String) (sp : String → Bool) (dk : Bool)
    (ds : List DeviceInfo) (a : Agent) (uid : String) (cam : Camera)
    (hc : lookupS (refreshCameras host base sp dk ds a).cameras uid = some cam) :
    cam.enabled = (lookupS a.state uid).getD true := by
  unfold refreshCameras at hc
  dsimp only at hc
  refine (refreshLoop_inv ⟨host, slugify host, base, sp⟩ uid
    ((lookupS a.state uid).getD true) (sortDevices ds) 0
    ⟨[], a.cameras, a.publishers, a.procs, a.nextPid, a.state⟩ rfl ?_).2 cam hc
  intro cam0 hc0
  cases hc0

theorem refresh_state_preserved (host base : String) (sp : String → Bool) (dk : Bool)
    (ds : List DeviceInfo) (a : Agent) (k : String) (v : Bool)
    (h : lookupS a.state k = some v) :
    lookupS (refreshCameras host base sp dk ds a).state k = some v := by
  unfold refreshCameras
  dsimp only
  exact refreshLoop_state_some ⟨host, slugify host, base, sp⟩ k v (sortDevices ds) 0
    ⟨[], a.cameras, a.publishers, a.procs, a.nextPid, a.state⟩ h

theorem refresh_cameras_from (host base : String) (sp : String → Bool) (dk : Bool)
    (ds : List DeviceInfo) (a : Agent) (uid : String) (cam : Camera)
    (hc : lookupS (refreshCameras host base sp dk ds a).cameras uid = some cam) :
    ∃ k d, (sortDevices ds).get? k = some d ∧ uid = mkDeviceUID host d ∧
      cam.deviceUID = mkDeviceUID host d ∧ cam.node = d.node ∧
      cam.name = mkName d k ∧
      cam.streamPath = mkStreamPath (slugify host) (mkName d k) k ∧
      cam.rtspUrl = mkRtspURL base (mkStreamPath (slugify host) (mkName d k) k) := by
  unfold refreshCameras at hc
  dsimp only at hc
  rcases refreshLoop_next_from ⟨host, slugify host, base, sp⟩ (sortDevices ds) 0
    ⟨[], a.cameras, a.publishers, a.procs, a.nextPid, a.state⟩ uid cam hc with h1 | h1
  · cases h1
  · simpa using h1

theorem vanish_pubs_none (next : StrMap Camera) (uid : String) :
    ∀ (uids : List String) (p : PubCtx),
      lookupS p.publishers uid = none →
      lookupS (vanishLoop next uids p).publishers uid = none := by
  intro uids
  induction uids with
  | nil => intro p h; exact h
  | cons u rest ih =>
    intro p h
    unfold vanishLoop
    by_cases hn : (lookupS next u).isNone
    · simp only [hn, if_pos]
      by_cases hu : u = uid
      · subst hu
        rw [stop_noop_of_none u p h]
        exact ih p h
      · refine ih _ ?_
        rw [stop_pubs_other u uid p (fun he => hu he.symm)]
        exact h
    · simp only [hn, if_neg, Bool.false_eq_true, not_false_eq_true]
      exact ih p h

theorem vanish_pubs_gone (next : StrMap Camera) (uid : String) :
    ∀ (uids : List String) (p : PubCtx),
      uid ∈ uids → (lookupS next uid).isNone →
      lookupS (vanishLoop next uids p).publishers uid = none := by
  intro uids
  induction uids with
  | nil => intro p h; cases h
  | cons u rest ih =>
    intro p hmem hnone
    unfold vanishLoop
    by_cases hu : u = uid
    · subst hu
      simp only [hnone, if_pos]
      exact vanish_pubs_none next u rest _ (stop_pubs_self u p)
    · have hmem' : uid ∈ rest := by
        rcases List.mem_cons.mp hmem with h | h
        · exact absurd h.symm hu
        · exact h
      by_cases hn : (lookupS next u).isNone
      · simp only [hn, if_pos]
        exact ih _ hmem' hnone
      · simp only [hn, if_neg, Bool.false_eq_true, not_false_eq_true]
        exact ih p hmem' hnone

theorem refresh_vanish (host base : String) (sp : String → Bool) (dk : Bool)
    (ds : List DeviceInfo) (a : Agent) (uid : String)
    (hmem : (lookupS a.cameras uid).isSome)
    (habs : ∀ d ∈ ds, mkDeviceUID host d ≠ uid) :
    lookupS (refreshCameras host base sp dk ds a).cameras uid = none ∧
    lookupS (refreshCameras host base sp dk ds a).publishers uid = none ∧
    (∀ pid, lookupS a.publishers uid = some pid → hasProcPid pid false a.procs →
      hasProcPid pid true (refreshCameras host base sp dk ds a).procs) := by
  have habs' : ∀ d ∈ sortDevices ds, mkDeviceUID host d ≠ uid := by
    intro d hd
    exact habs d (((List.perm_insertionSort _ ds).mem_iff).mp hd)
  unfold refreshCameras
  dsimp only
  have hnext : lookupS (refreshLoop ⟨host, slugify host, base, sp⟩ 0 (sortDevices ds)
      ⟨[], a.cameras, a.publishers, a.procs, a.nextPid, a.state⟩).next uid = none :=
    refreshLoop_next_none _ uid (sortDevices ds) 0 _ habs' rfl
  have hkeys : uid ∈ ((refreshLoop ⟨host, slugify host, base, sp⟩ 0 (sortDevices ds)
      ⟨[], a.cameras, a.publishers, a.procs, a.nextPid, a.state⟩).old.map
        (fun kv => kv.1)) := by
    rw [refreshLoop_old_keys]
    exact (lookupS_isSome_iff_mem a.cameras uid).mp hmem
  refine ⟨hnext, ?_, ?_⟩
  · exact vanish_pubs_gone _ uid _ _ hkeys (by rw [hnext]; rfl)
  · intro pid hpub hproc
    have hpub' : lookupS (refreshLoop ⟨host, slugify host, base, sp⟩ 0 (sortDevices ds)
        ⟨[], a.cameras, a.publishers, a.procs, a.nextPid, a.state⟩).publishers uid =
          some pid := by
      rw [refreshLoop_publishers _ uid (sortDevices ds) 0 _ habs']
      exact hpub
    have hproc' := refreshLoop_procs ⟨host, slugify host, base, sp⟩ pid false
      (sortDevices ds) 0 ⟨[], a.cameras, a.publishers, a.procs, a.nextPid, a.state⟩ hproc
    exact (vanish_retire _ uid pid _ _ hkeys (by rw [hnext]; rfl) hpub' hproc').2

theorem strMk_data (k : String) : String.mk k.data = k := by
  cases k
  rfl

theorem skipWs_ws (c : Char) (h : isWsChar c = true) (cs : List Char) :
    skipWs (c :: cs) = skipWs cs := by
  simp [skipWs, List.dropWhile, h]

theorem skipWs_not (c : Char) (h : isWsChar c = false) (cs : List Char) :
    skipWs (c :: cs) = c :: cs := by
  simp [skipWs, List.dropWhile, h]

theorem takeWhile_key (key : List Char) (rest : List Char) (h : '"' ∉ key) :
    (key ++ '"' :: rest).takeWhile (fun c => c != '"') = key ∧
      (key ++ '"' :: rest).dropWhile (fun c => c != '"') = '"' :: rest := by
  induction key with
  | nil => simp [List.takeWhile, List.dropWhile]
  | cons c cs ih =>
    have hc : c ≠ '"' := fun he => h (by rw [he]; exact List.mem_cons_self _ _)
    have hcs : '"' ∉ cs := fun hm => h (List.mem_cons_of_mem _ hm)
    have hb : (c != '"') = true := by simpa using hc
    obtain ⟨ih1, ih2⟩ := ih hcs
    constructor
    · simpa [List.takeWhile, hb] using ih1
    · simpa [List.dropWhile, hb] using ih2

theorem parseKeyTok_encode (k : String) (rest : List Char) (hk : '"' ∉ k.data) :
    parseKeyTok ('"' :: (k.data ++ '"' :: rest)) = some (k, rest) := by
  obtain ⟨h1, h2⟩ := takeWhile_key k.data rest hk
  simp only [parseKeyTok, h1, h2, strMk_data]

theorem parseBoolTok_encode (b : Bool) (rest : List Char) :
    parseBoolTok ((boolStr b).data ++ rest) = some (b, rest) := by
  cases b <;> rfl

theorem skipWs_boolStr (b : Bool) (x : List Char) :
    skipWs ((boolStr b).data ++ x) = (boolStr b).data ++ x := by
  cases b <;> rfl

theorem skipWs_entriesChars (l : StrMap Bool) (h : l ≠ []) :
    skipWs (entriesChars l) = entriesChars l := by
  cases l with
  | nil => exact absurd rfl h
  | cons kv rest =>
    obtain ⟨k, b⟩ := kv
    have hsh : ∃ t, entriesChars ((k, b) :: rest) = '"' :: t := by
      cases rest with
      | nil =>
        exact ⟨(k.data ++ '"' :: ':' :: ' ' :: (boolStr b).data) ++ ['\n', '\x7d'],
          by simp [entriesChars, entryChars]⟩
      | cons kv2 rest2 =>
        exact ⟨(k.data ++ '"' :: ':' :: ' ' :: (boolStr b).data) ++
          ',' :: '\n' :: ' ' :: ' ' :: entriesChars (kv2 :: rest2),
          by simp [entriesChars, entryChars]⟩
    obtain ⟨t, ht⟩ := hsh
    rw [ht, skipWs_not '"' (by decide)]

theorem parseEntries_entriesChars :
    ∀ (l : StrMap Bool), l ≠ [] → (∀ kv ∈ l, '"' ∉ kv.1.data) →
    ∀ fuel, l.length ≤ fuel →
    parseEntries fuel (entriesChars l) = some (l, []) := by
  intro l
  induction l with
  | nil => intro h; exact absurd rfl h
  | cons kv rest ih =>
    intro _ hplain fuel hfuel
    obtain ⟨k, b⟩ := kv
    have hk : '"' ∉ k.data := hplain (k, b) (List.mem_cons_self _ _)
    cases fuel with
    | zero => simp at hfuel
    | succ f =>
      cases rest with
      | nil =>
        have hsplit : entriesChars [(k, b)] =
            '"' :: (k.data ++ '"' :: (':' :: ' ' :: ((boolStr b).data ++ ['\n', '\x7d']))) := by
          simp [entriesChars, entryChars, List.append_assoc]
        rw [hsplit]
        simp only [parseEntries]
        rw [parseKeyTok_encode _ _ hk]
        simp [skipWs_not, skipWs_ws, skipWs_boolStr, parseBoolTok_encode, isWsChar]
      | cons kv2 rest2 =>
        have hne2 : kv2 :: rest2 ≠ ([] : StrMap Bool) := by simp
        have hplain2 : ∀ kv ∈ kv2 :: rest2, '"' ∉ kv.1.data :=
          fun kv hkv => hplain kv (List.mem_cons_of_mem _ hkv)
        have hrec : parseEntries f (entriesChars (kv2 :: rest2)) = some (kv2 :: rest2, []) :=
          ih hne2 hplain2 f (by simpa using Nat.succ_le_succ_iff.mp hfuel)
        have hsplit : entriesChars ((k, b) :: kv2 :: rest2) =
            '"' :: (k.data ++ '"' :: (':' :: ' ' :: ((boolStr b).data ++
              (',' :: '\n' :: ' ' :: ' ' :: entriesChars (kv2 :: rest2))))) := by
          simp [entriesChars, entryChars, List.append_assoc]
        rw [hsplit]
        simp only [parseEntries]
        rw [parseKeyTok_encode _ _ hk]
        simp [skipWs_not, skipWs_ws, skipWs_boolStr, parseBoolTok_encode, isWsChar,
          skipWs_entriesChars _ hne2, hrec]

theorem encodeData : ∀ (l : StrMap Bool), l ≠ [] →
    (encodeEntriesStr l).data ++ ['\n', '\x7d'] = ' ' :: ' ' :: entriesChars l := by
  intro l
  induction l with
  | nil => intro h; exact absurd rfl h
  | cons kv rest ih =>
    intro _
    obtain ⟨k, b⟩ := kv
    cases rest with
    | nil =>
      simp [encodeEntriesStr, entryStr, entriesChars, entryChars, String.data_append,
        List.append_assoc]
    | cons kv2 rest2 =>
      have ih2 := ih (by simp)
      show (entryStr (k, b) ++ ",\n" ++ encodeEntriesStr (kv2 :: rest2)).data ++
        ['\n', '\x7d'] = _
      rw [String.data_append, String.data_append]
      have : (entryStr (k, b)).data = ' ' :: ' ' :: entryChars k b := by
        simp [entryStr, entryChars, String.data_append, List.append_assoc]
      rw [this]
      show _ = ' ' :: ' ' :: (entryChars k b ++ ',' :: '\n' :: ' ' :: ' ' ::
        entriesChars (kv2 :: rest2))
      rw [← ih2]
      simp [List.append_assoc]

theorem length_le_entriesChars : ∀ (l : StrMap Bool),
    l.length ≤ (entriesChars l).length := by
  intro l
  induction l with
  | nil => simp [entriesChars]
  | cons kv rest ih =>
    obtain ⟨k, b⟩ := kv
    cases rest with
    | nil => simp [entriesChars, entryChars]
    | cons kv2 rest2 =>
      have h2 : entriesChars ((k, b) :: kv2 :: rest2) =
          entryChars k b ++ ',' :: '\n' :: ' ' :: ' ' :: entriesChars (kv2 :: rest2) := by
        simp [entriesChars]
      rw [h2]
      simp only [List.length_append, List.length_cons]
      simp at ih ⊢
      omega

theorem entriesChars_shape (kv : String × Bool) (rest : StrMap Bool) :
    ∃ t, entriesChars (kv :: rest) = '"' :: t := by
  obtain ⟨k, b⟩ := kv
  cases rest with
  | nil =>
    exact ⟨(k.data ++ '"' :: ':' :: ' ' :: (boolStr b).data) ++ ['\n', '\x7d'],
      by simp [entriesChars, entryChars]⟩
  | cons kv2 rest2 =>
    exact ⟨(k.data ++ '"' :: ':' :: ' ' :: (boolStr b).data) ++
      ',' :: '\n' :: ' ' :: ' ' :: entriesChars (kv2 :: rest2),
      by simp [entriesChars, entryChars]⟩

theorem parseStateJson_saveStateStr (m : StrMap Bool)
    (hpl : ∀ kv ∈ m, '"' ∉ kv.1.data) :
    parseStateJson (saveStateStr m) = some (sortPairs m) := by
  cases hs : sortPairs m with
  | nil =>
    unfold saveStateStr
    rw [hs]
    rfl
  | cons kv0 rest0 =>
    have hne : (kv0 :: rest0 : StrMap Bool) ≠ [] := by simp
    have hplain' : ∀ kv' ∈ (kv0 :: rest0 : StrMap Bool), '"' ∉ kv'.1.data := by
      intro kv' hkv'
      refine hpl kv' ?_
      rw [← hs] at hkv'
      exact ((List.perm_insertionSort (fun a b : String × Bool => a.1 ≤ b.1) m).mem_iff).mp hkv'
    have hsave : saveStateStr m = "\x7b\n" ++ encodeEntriesStr (kv0 :: rest0) ++ "\n\x7d" := by
      unfold saveStateStr
      rw [hs]
    have hdata : (saveStateStr m).data =
        '\x7b' :: '\n' :: ' ' :: ' ' :: entriesChars (kv0 :: rest0) := by
      rw [hsave, String.data_append, String.data_append]
      show ['\x7b', '\n'] ++ ((encodeEntriesStr (kv0 :: rest0)).data ++ ['\n', '\x7d']) = _
      rw [encodeData _ hne]
      rfl
    obtain ⟨t, ht⟩ := entriesChars_shape kv0 rest0
    have hlen : (kv0 :: rest0 : StrMap Bool).length ≤ ('"' :: t).length + 1 := by
      have := length_le_entriesChars (kv0 :: rest0)
      rw [ht] at this
      simpa using Nat.le_succ_of_le this
    have hpe : parseEntries (t.length + 1 + 1) ('"' :: t) = some (kv0 :: rest0, []) := by
      have h0 : t.length + 1 + 1 = ('"' :: t).length + 1 := by simp
      rw [h0, ← ht]
      exact parseEntries_entriesChars _ hne hplain' _ (by rw [ht]; exact hlen)
    unfold parseStateJson
    rw [hdata]
    rw [skipWs_not '\x7b' (by decide)]
    simp [skipWs_ws, skipWs_not, isWsChar, ht, hpe, skipWs_entriesChars _ hne, skipWs]

theorem nodupKeys_perm {α : Type} {l1 l2 : StrMap α} (h : l1.Perm l2)
    (hnd : NodupKeys l1) : NodupKeys l2 := by
  unfold NodupKeys at hnd ⊢
  exact ((h.map (fun kv => kv.1)).nodup_iff).mp hnd

theorem lookupS_perm {α : Type} (k : String) :
    ∀ {l1 l2 : StrMap α}, l1.Perm l2 → NodupKeys l1 → lookupS l1 k = lookupS l2 k := by
  intro l1 l2 h
  induction h with
  | nil => intro _; rfl
  | cons x h ih =>
    rename_i t1 t2
    intro hnd
    obtain ⟨kx, vx⟩ := x
    have hnd' : NodupKeys t1 := by
      simp only [NodupKeys, List.map_cons, List.nodup_cons] at hnd
      exact hnd.2
    by_cases hk : kx = k
    · simp [lookupS, hk]
    · simp [lookupS, hk, ih hnd']
  | swap x y t =>
    intro hnd
    obtain ⟨kx, vx⟩ := x
    obtain ⟨ky, vy⟩ := y
    have hxy : ky ≠ kx := by
      simp only [NodupKeys, List.map_cons, List.nodup_cons, List.mem_cons] at hnd
      exact fun he => hnd.1 (Or.inl he)
    by_cases h1 : ky = k <;> by_cases h2 : kx = k
    · exact absurd (h1.trans h2.symm) hxy
    · simp [lookupS, h1, h2]
    · simp [lookupS, h1, h2]
    · simp [lookupS, h1, h2]
  | trans h1 h2 ih1 ih2 =>
    intro hnd
    exact (ih1 hnd).trans (ih2 (nodupKeys_perm h1 hnd))

theorem loadState_saveState (m : StrMap Bool) (hnd : NodupKeys m) (hpl : PlainKeys m)
    (k : String) :
    lookupS (loadState (some (saveStateStr m))) k = lookupS m k := by
  have hpl' : ∀ kv ∈ m, '"' ∉ kv.1.data := fun kv hkv => (hpl kv hkv).1
  unfold loadState
  dsimp only
  rw [parseStateJson_saveStateStr m hpl']
  have hperm : (sortPairs m).Perm m :=
    List.perm_insertionSort (fun a b : String × Bool => a.1 ≤ b.1) m
  exact lookupS_perm k hperm (nodupKeys_perm hperm.symm hnd)

theorem refreshStep_state_nodup (c : RefCfg) (idx : Nat) (d : DeviceInfo) (r : RefreshSt)
    (h : NodupKeys r.state) : NodupKeys (refreshStep c idx d r).state := by
  unfold refreshStep
  dsimp only
  cases hst : lookupS r.state (mkDeviceUID c.host d) with
  | some b => cases b <;> simp only [hst, Bool.false_eq_true, if_false, if_true, reduceIte] <;> exact h
  | none =>
    simp only [hst, if_true]
    exact nodupKeys_insertS _ _ _ h

theorem refreshStep_state_plain (c : RefCfg) (idx : Nat) (d : DeviceInfo) (r : RefreshSt)
    (h : PlainKeys r.state) (hd : PlainKey (mkDeviceUID c.host d)) :
    PlainKeys (refreshStep c idx d r).state := by
  unfold refreshStep
  dsimp only
  cases hst : lookupS r.state (mkDeviceUID c.host d) with
  | some b => cases b <;> simp only [hst, Bool.false_eq_true, if_false, if_true, reduceIte] <;> exact h
  | none =>
    simp only [hst, if_true]
    exact plainKeys_insertS _ _ _ h hd

theorem refreshLoop_state_nodup (c : RefCfg) :
    ∀ (ds : List DeviceInfo) (idx : Nat) (r : RefreshSt),
      NodupKeys r.state → NodupKeys (refreshLoop c idx ds r).state := by
  intro ds
  induction ds with
  | nil => intro idx r h; exact h
  | cons d rest ih =>
    intro idx r h
    exact ih (idx + 1) _ (refreshStep_state_nodup c idx d r h)

theorem refreshLoop_state_plain (c : RefCfg) :
    ∀ (ds : List DeviceInfo) (idx : Nat) (r : RefreshSt),
      PlainKeys r.state → (∀ d ∈ ds, PlainKey (mkDeviceUID c.host d)) →
      PlainKeys (refreshLoop c idx ds r).state := by
  intro ds
  induction ds with
  | nil => intro idx r h _; exact h
  | cons d rest ih =>
    intro idx r h hds
    exact ih (idx + 1) _
      (refreshStep_state_plain c idx d r h (hds d (List.mem_cons_self d rest)))
      (fun d' hd' => hds d' (List.mem_cons_of_mem _ hd'))

theorem refresh_state_nodup (host base : String) (sp : String → Bool) (dk : Bool)
    (ds : List DeviceInfo) (a : Agent) (h : NodupKeys a.state) :
    NodupKeys (refreshCameras host base sp dk ds a).state := by
  unfold refreshCameras
  dsimp only
  exact refreshLoop_state_nodup _ (sortDevices ds) 0 _ h

theorem refresh_state_plain (host base : String) (sp : String → Bool) (dk : Bool)
    (ds : List DeviceInfo) (a : Agent) (h : PlainKeys a.state)
    (hds : ∀ d ∈ ds, PlainKey (mkDeviceUID host d)) :
    PlainKeys (refreshCameras host base sp dk ds a).state := by
  unfold refreshCameras
  dsimp only
  refine refreshLoop_state_plain _ (sortDevices ds) 0 _ h ?_
  intro d hd
  exact hds d (((List.perm_insertionSort _ ds).mem_iff).mp hd)

theorem refresh_disk_saved (host base : String) (sp : String → Bool)
    (ds : List DeviceInfo) (a : Agent) :
    (refreshCameras host base sp true ds a).disk =
      some (saveStateStr ((refreshCameras host base sp true ds a).state)) := by
  unfold refreshCameras
  dsimp only
  rw [if_pos rfl]

/-- C1: the claim states that at most one live Publisher (live ffmpeg
subprocess) ever exists per deviceUID, and in particular that a
disable/enable toggle racing the restart delay never yields two
concurrent Publishers.  The code violates this: this theorem evaluates
the embedded model on the trace «refresh starts P1 (pid 1); toggle off
(P1 interrupted, entry removed); toggle on before P1 exits (P2, pid 2,
spawned); P1 exits; P1's exit handler unconditionally deletes the
uid's publishers entry (main.go:253), clobbering P2's registration,
reads the camera as enabled, and after the restart delay spawns P3
(pid 3)» and finds two live, never-signaled ffmpeg subprocesses for
the same deviceUID. -/
theorem c1_two_live_publishers :
    liveFfmpeg c1uid c1a6 = 2 ∧
    (c1a6.procs.filter (fun pr => pr.uid == c1uid && pr.alive && !pr.signaled)).length = 2 := by
  decide

/-- C2 counterexample: the claim's biconditional says a restart via
`ensure` happens after the delay if and only if the camera is present
and enabled at restart time.  At this concrete input the camera is
disabled at exit time (so the handler never enters the delay/restart
path, main.go:262) but an enable toggle lands during the window, so
the camera is present and enabled at restart time — yet no restart
occurs: the biconditional fails. -/
theorem c2_restart_iff_fails :
    exitHandlerRestartOccurs c2uid c2agent c2during = false ∧
    camPresentEnabled ((c2during (exitBookkeeping c2uid c2agent).1)).cameras c2uid = true := by
  decide

/-- C2 (amended): when a supervised subprocess exits, the exit handler
removes the uid's entry from the live set, and a restart via `ensure`
happens after the fixed restart delay if and only if the camera was
still present and enabled at exit time AND is still present and
enabled (re-read) at restart time; in particular a disable issued
during the delay window prevents the restart, and when the restart
fires it leaves a registered publisher for the uid. -/
theorem c2_exit_handling (uid : String) (a : Agent) (during : Agent → Agent) :
    lookupS ((exitBookkeeping uid a).1).publishers uid = none ∧
    (exitHandlerRestartOccurs uid a during = true ↔
      ((exitBookkeeping uid a).2 = true ∧
        camPresentEnabled ((during (exitBookkeeping uid a).1)).cameras uid = true)) ∧
    (camPresentEnabled ((during (exitBookkeeping uid a).1)).cameras uid = false →
      exitHandlerRestartOccurs uid a during = false) ∧
    (exitHandlerRestartOccurs uid a during = true →
      (lookupS ((exitRestart true uid (during (exitBookkeeping uid a).1)).publishers) uid).isSome) := by
  refine ⟨?_, ?_, ?_, ?_⟩
  · show lookupS (eraseS a.publishers uid) uid = none
    rw [lookupS_eraseS]
    simp
  · unfold exitHandlerRestartOccurs
    simp
  · intro h
    unfold exitHandlerRestartOccurs
    rw [h]
    simp
  · intro h
    unfold exitHandlerRestartOccurs at h
    simp only [Bool.and_eq_true] at h
    unfold exitRestart
    rw [h.2]
    simp only [if_true]
    show (lookupS (ensurePublisherLocked true uid _).publishers uid).isSome = true
    exact ensure_pubs_self uid _

/-- Witness for C2's amended theorem at a concrete input: with the
camera enabled at exit time and untouched during the delay, the
restart fires and re-registers a publisher. -/
theorem c2_exit_handling_witness :
    exitHandlerRestartOccurs c2uid c2enabledAgent id = true ∧
    (lookupS ((exitRestart true c2uid (id (exitBookkeeping c2uid c2enabledAgent).1)).publishers) c2uid).isSome := by
  refine ⟨by decide, ?_⟩
  exact (c2_exit_handling c2uid c2enabledAgent id).2.2.2 (by decide)

/-- C3: `ensure` is idempotent — after an `ensure` whose spawn
succeeded, a second `ensure` for the same deviceUID is a no-op (the
state is literally unchanged), and starting from no registered
publisher and no live subprocess for the uid, the double `ensure`
leaves exactly one registered publisher and exactly one live
subprocess; `retire` is idempotent — with no live publisher for the
uid it changes nothing. -/
theorem c3_ensure_retire_idempotent :
    (∀ (p : PubCtx) (uid : String) (s2 : Bool),
      ensurePublisherLocked s2 uid (ensurePublisherLocked true uid p) =
        ensurePublisherLocked true uid p) ∧
    (∀ (p : PubCtx) (uid : String) (s2 : Bool),
      lookupS p.publishers uid = none →
      (∀ pr ∈ p.procs, ¬(pr.uid = uid ∧ pr.alive = true)) →
      lookupS (ensurePublisherLocked s2 uid
          (ensurePublisherLocked true uid p)).publishers uid = some p.nextPid ∧
      ((ensurePublisherLocked s2 uid (ensurePublisherLocked true uid p)).procs.filter
        (fun pr => pr.uid == uid && pr.alive)).length = 1) ∧
    (∀ (p : PubCtx) (uid : String),
      lookupS p.publishers uid = none → stopPublisherLocked uid p = p) := by
  refine ⟨?_, ?_, ?_⟩
  · intro p uid s2
    exact ensure_noop_of_isSome s2 uid _ (ensure_pubs_self uid p)
  · intro p uid s2 hnone hproc
    rw [ensure_noop_of_isSome s2 uid _ (ensure_pubs_self uid p)]
    have hno : ¬(lookupS p.publishers uid).isSome = true := by rw [hnone]; simp
    constructor
    · simp only [ensurePublisherLocked, hno, if_false, Bool.not_true, Bool.false_eq_true]
      rw [lookupS_insertS]
      simp
    · simp only [ensurePublisherLocked, hno, if_false, Bool.not_true, Bool.false_eq_true]
      rw [List.filter_append]
      have hz : p.procs.filter (fun pr => pr.uid == uid && pr.alive) = [] := by
        rw [List.filter_eq_nil_iff]
        intro pr hpr
        have := hproc pr hpr
        simp only [Bool.and_eq_true, beq_iff_eq]
        intro hcon
        exact this ⟨hcon.1, hcon.2⟩
      rw [hz]
      simp
  · intro p uid h
    exact stop_noop_of_none uid p h

/-- Witness for C3 at a concrete empty supervisor state. -/
theorem c3_idempotent_witness :
    lookupS (ensurePublisherLocked false "u"
        (ensurePublisherLocked true "u" ⟨[], [], [], 5⟩)).publishers "u" = some 5 ∧
    ((ensurePublisherLocked false "u" (ensurePublisherLocked true "u"
        ⟨[], [], [], 5⟩)).procs.filter (fun pr => pr.uid == "u" && pr.alive)).length = 1 ∧
    stopPublisherLocked "u" ⟨[], [], [], 5⟩ = ⟨[], [], [], 5⟩ := by
  have h := c3_ensure_retire_idempotent
  refine ⟨?_, ?_, ?_⟩
  · exact (h.2.1 ⟨[], [], [], 5⟩ "u" false rfl (by simp)).1
  · exact (h.2.1 ⟨[], [], [], 5⟩ "u" false rfl (by simp)).2
  · exact h.2.2 ⟨[], [], [], 5⟩ "u" rfl

/-- C4: within a single reconciliation cycle, every deviceUID present
in the previous camera table whose device is absent from the newly
discovered set is retired in that same cycle (the loop over current
devices runs first, then the removal pass): its entry is gone from the
new table and from the publishers live set, and its live subprocess is
sent an interrupt — regardless of its enabled flag. -/
theorem c4_vanished_retired (host base : String) (sp : String → Bool) (dk : Bool)
    (ds : List DeviceInfo) (a : Agent) (uid : String)
    (hmem : (lookupS a.cameras uid).isSome)
    (habs : ∀ d ∈ ds, mkDeviceUID host d ≠ uid) :
    lookupS (refreshCameras host base sp dk ds a).cameras uid = none ∧
    lookupS (refreshCameras host base sp dk ds a).publishers uid = none ∧
    (∀ pid, lookupS a.publishers uid = some pid → hasProcPid pid false a.procs →
      hasProcPid pid true (refreshCameras host base sp dk ds a).procs) :=
  refresh_vanish host base sp dk ds a uid hmem habs

/-- Witness for C4: a scan that no longer lists `/dev/video1` retires
its enabled camera's publisher and interrupts pid 1. -/
theorem c4_vanished_retired_witness :
    lookupS (refreshCameras "h" "rtsp://x" (fun _ => true) true [] c4agent).cameras
      "h:/dev/video1" = none ∧
    lookupS (refreshCameras "h" "rtsp://x" (fun _ => true) true [] c4agent).publishers
      "h:/dev/video1" = none ∧
    hasProcPid 1 true
      (refreshCameras "h" "rtsp://x" (fun _ => true) true [] c4agent).procs := by
  have h := c4_vanished_retired "h" "rtsp://x" (fun _ => true) true [] c4agent
    "h:/dev/video1" (by decide) (by simp)
  exact ⟨h.1, h.2.1, h.2.2 1 (by decide)
    ⟨⟨1, "h:/dev/video1", true, false⟩, by decide, rfl, by decide⟩⟩

theorem stop_cams_enabled (uid u : String) (p : PubCtx) (v0 : Bool)
    (h : ∀ cam, lookupS p.cams u = some cam → cam.enabled = v0) :
    ∀ cam, lookupS (stopPublisherLocked uid p).cams u = some cam → cam.enabled = v0 := by
  intro cam hc
  rcases stop_cams_lookup uid u p with h1 | h1
  · exact h cam (h1 ▸ hc)
  · rw [h1.2] at hc
    cases hl : lookupS p.cams u with
    | none => rw [hl] at hc; cases hc
    | some cam0 =>
      rw [hl] at hc
      injection hc with h2
      rw [← h2]
      exact h cam0 hl

/-- C5: a toggle for an unknown deviceUID returns Not-Found and leaves
the whole agent state (camera table, persisted mapping, live set,
process pool, state file) untouched; a toggle for a known deviceUID
returns ok, sets the camera's enabled flag to the requested boolean,
writes that value into the state-store mapping, and retires the
publisher when disabling / ensures one when enabling. -/
theorem c5_toggle (sp dk : Bool) (uid : String) (b : Bool) (a : Agent) :
    (lookupS a.cameras uid = none →
      handleToggle sp dk uid b a = (a, ToggleResp.notFound)) ∧
    (∀ cam0, lookupS a.cameras uid = some cam0 →
      (handleToggle sp dk uid b a).2 = ToggleResp.ok ∧
      (∀ cam, lookupS ((handleToggle sp dk uid b a).1).cameras uid = some cam →
        cam.enabled = b) ∧
      (lookupS ((handleToggle sp dk uid b a).1).cameras uid).isSome ∧
      lookupS ((handleToggle sp dk uid b a).1).state uid = some b ∧
      (b = false → lookupS ((handleToggle sp dk uid b a).1).publishers uid = none) ∧
      (b = true → sp = true →
        (lookupS ((handleToggle sp dk uid b a).1).publishers uid).isSome)) := by
  constructor
  · intro h
    unfold handleToggle
    rw [h]
  · intro cam0 h
    have hbase : ∀ cam, lookupS (modifyS a.cameras uid
        (fun c => { c with enabled := b })) uid = some cam → cam.enabled = b := by
      intro cam hc
      rw [lookupS_modifyS] at hc
      simp only [if_pos rfl, h, Option.map_some'] at hc
      injection hc with h2
      rw [← h2]
    have hsome : (lookupS (modifyS a.cameras uid
        (fun c => { c with enabled := b })) uid).isSome := by
      rw [lookupS_modifyS]
      simp [h]
    unfold handleToggle
    rw [h]
    dsimp only
    cases b with
    | true =>
      simp only [if_true, reduceIte]
      refine ⟨trivial, ?_, ?_, ?_, ?_, ?_⟩
      · exact ensure_cams_enabled _ _ _ _ _ hbase
      · rcases ensure_cams_lookup sp uid uid
          ⟨modifyS a.cameras uid (fun c => { c with enabled := true }),
           a.publishers, a.procs, a.nextPid⟩ with h1 | h1
        · rw [h1]; exact hsome
        · rw [h1.2, lookupS_modifyS]
          simp [h]
      · rw [lookupS_insertS]; simp
      · intro hcon; cases hcon
      · intro _ hsp
        rw [hsp]
        exact ensure_pubs_self uid _
    | false =>
      simp only [Bool.false_eq_true, if_false]
      refine ⟨trivial, ?_, ?_, ?_, ?_, ?_⟩
      · exact stop_cams_enabled _ _ _ _ hbase
      · rcases stop_cams_lookup uid uid
          ⟨modifyS a.cameras uid (fun c => { c with enabled := false }),
           a.publishers, a.procs, a.nextPid⟩ with h1 | h1
        · rw [h1]; exact hsome
        · rw [h1.2, lookupS_modifyS]
          simp [h]
      · rw [lookupS_insertS]; simp
      · intro _; exact stop_pubs_self uid _
      · intro hcon; cases hcon

/-- Witness for C5: toggling an unknown uid on the one-camera agent is
a Not-Found no-op; disabling the known camera retires its publisher
and persists `false`. -/
theorem c5_toggle_witness :
    handleToggle true true "nope" true c4agent = (c4agent, ToggleResp.notFound) ∧
    (handleToggle true true "h:/dev/video1" false c4agent).2 = ToggleResp.ok ∧
    lookupS ((handleToggle true true "h:/dev/video1" false c4agent).1).state
      "h:/dev/video1" = some false ∧
    lookupS ((handleToggle true true "h:/dev/video1" false c4agent).1).publishers
      "h:/dev/video1" = none := by
  have h1 := (c5_toggle true true "nope" true c4agent).1 (by decide)
  have h2 := (c5_toggle true true "h:/dev/video1" false c4agent).2
    (⟨"h:/dev/video1", "Camera 1", "/dev/video1", "h-camera-1-0",
      "rtsp://x/h-camera-1-0", true, true⟩) (by decide)
  exact ⟨h1, h2.1, h2.2.2.2.1, h2.2.2.2.2.1 rfl⟩

/-- C6: a deviceUID seen for the first time during reconciliation is
seeded enabled (`true`) both in the built camera and in the persisted
mapping; `save` followed by `load` round-trips the mapping (for Go-map
representations: distinct keys, and keys free of JSON-escaped
characters, as every `hostname:node` uid is); and rerunning discovery
for the same device after a restart that reloads the saved state file
observes the same enabled value. -/
theorem c6_seed_and_roundtrip :
    (∀ (host base : String) (sp : String → Bool) (dk : Bool) (ds : List DeviceInfo)
      (a : Agent) (d : DeviceInfo), d ∈ ds →
      lookupS a.state (mkDeviceUID host d) = none →
      lookupS (refreshCameras host base sp dk ds a).state (mkDeviceUID host d) = some true ∧
      (∀ cam, lookupS (refreshCameras host base sp dk ds a).cameras (mkDeviceUID host d) =
        some cam → cam.enabled = true)) ∧
    (∀ (m : StrMap Bool), NodupKeys m → PlainKeys m → ∀ k,
      lookupS (loadState (some (saveStateStr m))) k = lookupS m k) ∧
    (∀ (host base : String) (d : DeviceInfo) (a : Agent) (sp1 sp2 : String → Bool),
      NodupKeys a.state → PlainKeys a.state → PlainKey (mkDeviceUID host d) →
      ∀ cam1 cam2,
        lookupS (refreshCameras host base sp1 true [d] a).cameras
          (mkDeviceUID host d) = some cam1 →
        lookupS (refreshCameras host base sp2 true [d]
          (freshAgent ((refreshCameras host base sp1 true [d] a).disk))).cameras
          (mkDeviceUID host d) = some cam2 →
        cam2.enabled = cam1.enabled) := by
  refine ⟨?_, ?_, ?_⟩
  · intro host base sp dk ds a d hd hnone
    constructor
    · rw [refresh_state_val host base sp dk ds a d hd, hnone]
      rfl
    · intro cam hc
      rw [refresh_cam_enabled_val host base sp dk ds a _ cam hc, hnone]
      rfl
  · exact loadState_saveState
  · intro host base d a sp1 sp2 hnd hpl hplu cam1 cam2 hc1 hc2
    have hval1 : cam1.enabled = (lookupS a.state (mkDeviceUID host d)).getD true :=
      refresh_cam_enabled_val host base sp1 true [d] a _ cam1 hc1
    have hstate1 : lookupS (refreshCameras host base sp1 true [d] a).state
        (mkDeviceUID host d) = some ((lookupS a.state (mkDeviceUID host d)).getD true) :=
      refresh_state_val host base sp1 true [d] a d (List.mem_singleton.mpr rfl)
    have hnd1 : NodupKeys (refreshCameras host base sp1 true [d] a).state :=
      refresh_state_nodup host base sp1 true [d] a hnd
    have hpl1 : PlainKeys (refreshCameras host base sp1 true [d] a).state :=
      refresh_state_plain host base sp1 true [d] a hpl
        (fun d' hd' => by rw [List.mem_singleton.mp hd']; exact hplu)
    have hdisk : (refreshCameras host base sp1 true [d] a).disk =
        some (saveStateStr ((refreshCameras host base sp1 true [d] a).state)) :=
      refresh_disk_saved host base sp1 [d] a
    have hfresh : lookupS (freshAgent ((refreshCameras host base sp1 true [d] a).disk)).state
        (mkDeviceUID host d) = some ((lookupS a.state (mkDeviceUID host d)).getD true) := by
      have hfa : (freshAgent ((refreshCameras host base sp1 true [d] a).disk)).state =
          loadState ((refreshCameras host base sp1 true [d] a).disk) := rfl
      rw [hfa, hdisk, loadState_saveState _ hnd1 hpl1, hstate1]
    have hval2 : cam2.enabled =
        (lookupS (freshAgent ((refreshCameras host base sp1 true [d] a).disk)).state
          (mkDeviceUID host d)).getD true :=
      refresh_cam_enabled_val host base sp2 true [d] _ _ cam2 hc2
    rw [hval2, hfresh, hval1]
    rfl

/-- Witness for C6: first sight of `/dev/video0` seeds `true`, a saved
two-key mapping reloads unchanged, and the restart scenario observes
the same enabled value. -/
theorem c6_seed_and_roundtrip_witness :
    lookupS (refreshCameras "h" "rtsp://x" (fun _ => true) true
      [⟨"", "/dev/video0"⟩] emptyAgent).state "h:/dev/video0" = some true ∧
    lookupS (loadState (some (saveStateStr [("b", false), ("a", true)]))) "a" =
      lookupS [("b", false), ("a", true)] "a" ∧
    (⟨"h:/dev/video0", "Camera 1", "/dev/video0", "h-camera-1-0",
      "rtsp://x/h-camera-1-0", true, true⟩ : Camera).enabled =
      (⟨"h:/dev/video0", "Camera 1", "/dev/video0", "h-camera-1-0",
        "rtsp://x/h-camera-1-0", true, true⟩ : Camera).enabled := by
  have h := c6_seed_and_roundtrip
  refine ⟨?_, ?_, ?_⟩
  · exact (h.1 "h" "rtsp://x" (fun _ => true) true [⟨"", "/dev/video0"⟩] emptyAgent
      ⟨"", "/dev/video0"⟩ (by decide) rfl).1
  · exact h.2.1 [("b", false), ("a", true)] (by decide) (by decide) "a"
  · exact h.2.2 "h" "rtsp://x" ⟨"", "/dev/video0"⟩ emptyAgent (fun _ => true) (fun _ => true)
      (by decide) (by decide) (by decide) _ _ (by decide) (by decide)

/-- C7: `load` never fails the caller — for an absent state file or
contents that do not parse as a string-to-boolean JSON object it
returns the empty mapping, so every device discovered by an agent
started from such a file is treated as first-seen: seeded enabled and
persisted as `true`. -/
theorem c7_load_corrupt (file : Option String)
    (hbad : file = none ∨ ∃ s, file = some s ∧ parseStateJson s = none) :
    loadState file = [] ∧
    (∀ (host base : String) (sp : String → Bool) (dk : Bool) (ds : List DeviceInfo)
      (d : DeviceInfo), d ∈ ds →
      lookupS (refreshCameras host base sp dk ds (freshAgent file)).state
        (mkDeviceUID host d) = some true ∧
      (∀ cam, lookupS (refreshCameras host base sp dk ds (freshAgent file)).cameras
        (mkDeviceUID host d) = some cam → cam.enabled = true)) := by
  have hload : loadState file = [] := by
    rcases hbad with h | ⟨s, hf, hp⟩
    · rw [h]; rfl
    · rw [hf]
      unfold loadState
      dsimp only
      rw [hp]
  have hstate : (freshAgent file).state = [] := hload
  refine ⟨hload, ?_⟩
  intro host base sp dk ds d hd
  have hnone : lookupS (freshAgent file).state (mkDeviceUID host d) = none := by
    rw [hstate]; rfl
  constructor
  · rw [refresh_state_val host base sp dk ds (freshAgent file) d hd, hnone]
    rfl
  · intro cam hc
    rw [refresh_cam_enabled_val host base sp dk ds (freshAgent file) _ cam hc, hnone]
    rfl

/-- Witness for C7 at the invalid-JSON file `"not json"` and the
single-device scan. -/
theorem c7_load_corrupt_witness :
    loadState (some "not json") = [] ∧
    lookupS (refreshCameras "h" "rtsp://x" (fun _ => true) true
      [⟨"", "/dev/video0"⟩] (freshAgent (some "not json"))).state
      "h:/dev/video0" = some true := by
  have h := c7_load_corrupt (some "not json") (Or.inr ⟨"not json", rfl, by decide⟩)
  exact ⟨h.1, (h.2 "h" "rtsp://x" (fun _ => true) true [⟨"", "/dev/video0"⟩]
    ⟨"", "/dev/video0"⟩ (by decide)).1⟩

/-- C8: identity and naming are a pure function of the hostname and
the device list sorted lexicographically by node — every camera-table
entry produced by a reconciliation cycle comes from the device at some
0-based sorted index `i`, with name defaulting to `"Camera <i+1>"`
when the provider gave none, `deviceUID = hostname:node`, and
`streamPath = <hostSlug>-<nameSlug>-<i>`; concretely, discovery
returning `[{name:"", node:"/dev/video0"}]` on host `"cam-1"` yields a
camera named `"Camera 1"` with streamPath `"cam-1-camera-1-0"`. -/
theorem c8_identity_naming :
    (∀ ds : List DeviceInfo,
      List.Sorted (fun a b : DeviceInfo => a.node ≤ b.node) (sortDevices ds) ∧
      (sortDevices ds).Perm ds) ∧
    (∀ (d : DeviceInfo) (i : Nat), d.name = "" →
      mkName d i = "Camera " ++ toString (i + 1)) ∧
    (∀ (hostSlug name : String) (i : Nat),
      mkStreamPath hostSlug name i = hostSlug ++ "-" ++ slugify name ++ "-" ++ toString i) ∧
    (∀ (host base : String) (sp : String → Bool) (dk : Bool) (ds : List DeviceInfo)
      (a : Agent) (uid : String) (cam : Camera),
      lookupS (refreshCameras host base sp dk ds a).cameras uid = some cam →
      ∃ k d, (sortDevices ds).get? k = some d ∧ uid = mkDeviceUID host d ∧
        cam.deviceUID = mkDeviceUID host d ∧ cam.node = d.node ∧
        cam.name = mkName d k ∧
        cam.streamPath = mkStreamPath (slugify host) (mkName d k) k ∧
        cam.rtspUrl = mkRtspURL base (mkStreamPath (slugify host) (mkName d k) k)) ∧
    (lookupS (refreshCameras "cam-1" "rtsp://localhost:8554" (fun _ => true) true
        [⟨"", "/dev/video0"⟩] emptyAgent).cameras "cam-1:/dev/video0" =
      some ⟨"cam-1:/dev/video0", "Camera 1", "/dev/video0", "cam-1-camera-1-0",
        "rtsp://localhost:8554/cam-1-camera-1-0", true, true⟩) := by
  refine ⟨?_, ?_, ?_, ?_, ?_⟩
  · intro ds
    exact ⟨List.sorted_insertionSort _ ds, List.perm_insertionSort _ ds⟩
  · intro d i h
    unfold mkName
    rw [if_pos h]
  · intro hostSlug name i
    rfl
  · exact refresh_cameras_from
  · decide

/-- Witness for C8's quantified parts at the concrete scenario. -/
theorem c8_identity_naming_witness :
    mkName ⟨"", "/dev/video0"⟩ 0 = "Camera " ++ toString (0 + 1) ∧
    (∃ k d, (sortDevices [(⟨"", "/dev/video0"⟩ : DeviceInfo)]).get? k = some d ∧
      "cam-1:/dev/video0" = mkDeviceUID "cam-1" d ∧
      (⟨"cam-1:/dev/video0", "Camera 1", "/dev/video0", "cam-1-camera-1-0",
        "rtsp://localhost:8554/cam-1-camera-1-0", true, true⟩ : Camera).deviceUID =
          mkDeviceUID "cam-1" d ∧
      (⟨"cam-1:/dev/video0", "Camera 1", "/dev/video0", "cam-1-camera-1-0",
        "rtsp://localhost:8554/cam-1-camera-1-0", true, true⟩ : Camera).node = d.node ∧
      (⟨"cam-1:/dev/video0", "Camera 1", "/dev/video0", "cam-1-camera-1-0",
        "rtsp://localhost:8554/cam-1-camera-1-0", true, true⟩ : Camera).name = mkName d k ∧
      (⟨"cam-1:/dev/video0", "Camera 1", "/dev/video0", "cam-1-camera-1-0",
        "rtsp://localhost:8554/cam-1-camera-1-0", true, true⟩ : Camera).streamPath =
          mkStreamPath (slugify "cam-1") (mkName d k) k ∧
      (⟨"cam-1:/dev/video0", "Camera 1", "/dev/video0", "cam-1-camera-1-0",
        "rtsp://localhost:8554/cam-1-camera-1-0", true, true⟩ : Camera).rtspUrl =
          mkRtspURL "rtsp://localhost:8554" (mkStreamPath (slugify "cam-1") (mkName d k) k)) := by
  have h := c8_identity_naming
  refine ⟨h.2.1 ⟨"", "/dev/video0"⟩ 0 rfl, ?_⟩
  exact h.2.2.2.1 "cam-1" "rtsp://localhost:8554" (fun _ => true) true
    [⟨"", "/dev/video0"⟩] emptyAgent "cam-1:/dev/video0" _ (by decide)

/-- C9: every mutation path (reconciliation cycle; toggle of a known
uid) calls `save` synchronously with the freshly updated in-memory
mapping — with a working disk, the state file ends the operation
holding exactly the serialization of the new in-memory mapping; and a
save failure is not fatal and does not roll back: the in-memory
outcome of the operation is identical whether the save succeeds or
fails (only the on-disk file, left unchanged, differs). -/
theorem c9_save_sync_no_rollback :
    (∀ (host base : String) (sp : String → Bool) (ds : List DeviceInfo) (a : Agent),
      (refreshCameras host base sp true ds a).disk =
        some (saveStateStr ((refreshCameras host base sp true ds a).state))) ∧
    (∀ (host base : String) (sp : String → Bool) (ds : List DeviceInfo) (a : Agent),
      (refreshCameras host base sp false ds a).cameras =
        (refreshCameras host base sp true ds a).cameras ∧
      (refreshCameras host base sp false ds a).publishers =
        (refreshCameras host base sp true ds a).publishers ∧
      (refreshCameras host base sp false ds a).state =
        (refreshCameras host base sp true ds a).state ∧
      (refreshCameras host base sp false ds a).procs =
        (refreshCameras host base sp true ds a).procs ∧
      (refreshCameras host base sp false ds a).disk = a.disk) ∧
    (∀ (sp : Bool) (uid : String) (b : Bool) (a : Agent) (cam0 : Camera),
      lookupS a.cameras uid = some cam0 →
      ((handleToggle sp true uid b a).1).state = insertS a.state uid b ∧
      ((handleToggle sp true uid b a).1).disk =
        some (saveStateStr (insertS a.state uid b))) ∧
    (∀ (sp : Bool) (uid : String) (b : Bool) (a : Agent),
      ((handleToggle sp false uid b a).1).cameras =
        ((handleToggle sp true uid b a).1).cameras ∧
      ((handleToggle sp false uid b a).1).publishers =
        ((handleToggle sp true uid b a).1).publishers ∧
      ((handleToggle sp false uid b a).1).state =
        ((handleToggle sp true uid b a).1).state ∧
      ((handleToggle sp false uid b a).1).procs =
        ((handleToggle sp true uid b a).1).procs ∧
      ((handleToggle sp false uid b a).1).disk = a.disk ∧
      (handleToggle sp false uid b a).2 = (handleToggle sp true uid b a).2) := by
  refine ⟨refresh_disk_saved, ?_, ?_, ?_⟩
  · intro host base sp ds a
    exact ⟨rfl, rfl, rfl, rfl, rfl⟩
  · intro sp uid b a cam0 h
    unfold handleToggle
    rw [h]
    exact ⟨rfl, rfl⟩
  · intro sp uid b a
    unfold handleToggle
    cases h : lookupS a.cameras uid with
    | none => exact ⟨rfl, rfl, rfl, rfl, rfl, rfl⟩
    | some cam0 => exact ⟨rfl, rfl, rfl, rfl, rfl, rfl⟩

/-- Witness for C9's toggle conjunct at the concrete one-camera agent. -/
theorem c9_save_sync_witness :
    ((handleToggle true true "h:/dev/video1" false c4agent).1).state =
      insertS c4agent.state "h:/dev/video1" false ∧
    ((handleToggle true true "h:/dev/video1" false c4agent).1).disk =
      some (saveStateStr (insertS c4agent.state "h:/dev/video1" false)) :=
  c9_save_sync_no_rollback.2.2.1 true "h:/dev/video1" false c4agent
    ⟨"h:/dev/video1", "Camera 1", "/dev/video1", "h-camera-1-0",
     "rtsp://x/h-camera-1-0", true, true⟩ (by decide)

/-- C10: the persisted state mapping only grows or updates in place —
a reconciliation cycle preserves every existing binding exactly, a
toggle never removes a key, and the retained enabled flag of a device
absent from intervening scans still governs it when it reappears: the
rebuilt camera's enabled flag equals the retained value. -/
theorem c10_state_monotone :
    (∀ (host base : String) (sp : String → Bool) (dk : Bool) (ds : List DeviceInfo)
      (a : Agent) (k : String) (v : Bool),
      lookupS a.state k = some v →
      lookupS (refreshCameras host base sp dk ds a).state k = some v) ∧
    (∀ (sp dk : Bool) (uid : String) (b : Bool) (a : Agent) (k : String),
      (lookupS a.state k).isSome →
      (lookupS ((handleToggle sp dk uid b a).1).state k).isSome) ∧
    (∀ (host base : String) (sp : String → Bool) (dk : Bool) (ds : List DeviceInfo)
      (a : Agent) (d : DeviceInfo) (b : Bool) (cam : Camera),
      lookupS a.state (mkDeviceUID host d) = some b →
      d ∈ ds →
      lookupS (refreshCameras host base sp dk ds a).cameras (mkDeviceUID host d) =
        some cam →
      cam.enabled = b) := by
  refine ⟨refresh_state_preserved, ?_, ?_⟩
  · intro sp dk uid b a k h
    unfold handleToggle
    cases hc : lookupS a.cameras uid with
    | none => exact h
    | some cam0 =>
      show (lookupS (insertS a.state uid b) k).isSome
      rw [lookupS_insertS]
      by_cases hk : uid = k
      · simp [hk]
      · simp only [hk, if_false]
        exact h
  · intro host base sp dk ds a d b cam h _ hc
    rw [refresh_cam_enabled_val host base sp dk ds a _ cam hc, h]
    rfl

/-- Witness for C10 at concrete inputs: a cycle that no longer sees the
device keeps its binding, a toggle keeps other keys, and a later scan
that rediscovers the device rebuilds it with the retained flag. -/
theorem c10_state_monotone_witness :
    lookupS (refreshCameras "h" "rtsp://x" (fun _ => true) true [] c4agent).state
      "h:/dev/video1" = some true ∧
    (lookupS ((handleToggle true true "h:/dev/video1" false c4agent).1).state
      "h:/dev/video1").isSome ∧
    (⟨"h:/dev/video1", "Camera 1", "/dev/video1", "h-camera-1-0",
      "rtsp://x/h-camera-1-0", true, true⟩ : Camera).enabled = true := by
  have h := c10_state_monotone
  refine ⟨?_, ?_, ?_⟩
  · exact h.1 "h" "rtsp://x" (fun _ => true) true [] c4agent "h:/dev/video1" true rfl
  · exact h.2.1 true true "h:/dev/video1" false c4agent "h:/dev/video1" (by decide)
  · exact h.2.2 "h" "rtsp://x" (fun _ => true) true [⟨"Camera 1", "/dev/video1"⟩]
      c4agent ⟨"Camera 1", "/dev/video1"⟩ true _ rfl (by decide) (by decide)
